import Mathlib

/-!
# news-svc: posts entity, application service and Mongo storage adapter

A shallow embedding of

* `internal/entity/post/entity.go`   (`Post`, `Post.Validate`),
* `internal/service/post/service.go` (the application service over a
  `repository` interface),
* `internal/storage/mongo/post/repo.go` (the storage adapter), together with an
  in-memory model of the one MongoDB collection it talks to,

followed by the theorems settled about them.

Conventions.  A Go `error` is an `Option Error` (`none` is `nil`).  Go `int64`
values are `Int`s; where the source does arithmetic on them the result is
wrapped into the signed 64-bit range by `wrap64`.  A `time.Time` is an `Int`
counting nanoseconds since the Unix epoch.  Go methods that write through a
pointer argument return the written value next to their ordinary results.
-/

namespace NewsSvc

/-! ## config/constants.go and the other error values that can surface -/

/-- Error values of the program.  The first three are the sentinels of
`config/constants.go`; the others are the errors of the BSON library and the
driver that the storage adapter hands on unchanged. -/
inductive Error where
  /-- Sentinel `config.ErrEmptyTitle`, "post title cannot be empty". -/
  | ErrEmptyTitle
  /-- Sentinel `config.ErrEmptyContent`, "post content cannot be empty". -/
  | ErrEmptyContent
  /-- Sentinel `config.ErrPostNotFound`, "post not found". -/
  | ErrPostNotFound
  /-- Sentinel `bson.ErrInvalidHex`, returned by `bson.ObjectIDFromHex` for a string that is not 24 bytes long. -/
  | ErrInvalidHex
  /-- Sentinel `mongo.ErrNoDocuments`, returned by `FindOne` when nothing matches. -/
  | ErrNoDocuments
  /-- The error of `encoding/hex` for a 24-byte string that is not all hex digits. -/
  | hexDecode
  /-- The adapter's own `errors.New("failed to get inserted ID")`. -/
  | insertedID
  /-- Any error reported by the driver or the server. -/
  | driver (msg : String)
  deriving DecidableEq, Repr

deriving instance DecidableEq for Except

/-- Go `time.Time`, as nanoseconds since the Unix epoch. -/
abbrev Time := Int

/-- A Go `int64` result of integer arithmetic: the value wrapped into the
range `-2^63 .. 2^63-1`. -/
def wrap64 (x : Int) : Int := (x + 2 ^ 63) % 2 ^ 64 - 2 ^ 63

/-! ## internal/entity/post/entity.go -/

/-- The `Post` struct. -/
structure Post where
  ID : String
  Title : String
  Content : String
  CreatedAt : Time
  UpdatedAt : Time
  deriving DecidableEq, Repr

/-- Go `func (p Post) Validate() error`. -/
def Post.Validate (p : Post) : Option Error :=
  if p.Title = "" then some Error.ErrEmptyTitle
  else if p.Content = "" then some Error.ErrEmptyContent
  else none

/-! ## internal/service/post -/

/-- The `repository` interface of `internal/service/post/types.go`.  An
implementation works on a state of type `σ`; every method returns its results
together with the state it leaves behind.  `Create` and `Update` receive a
`*post.Post` and may write to it, so they also return the post as they left it. -/
structure Repository (σ : Type) where
  Create : Post → σ → (Post × String × Option Error) × σ
  GetAll : Int → Int → σ → (List Post × Int × Option Error) × σ
  GetByID : String → σ → (Option Post × Option Error) × σ
  Update : Post → σ → (Post × Option Error) × σ
  Delete : String → σ → Option Error × σ
  Search : String → Int → Int → σ → (List Post × Int × Option Error) × σ
  GetRecent : Int → σ → (List Post × Option Error) × σ

/-- Go `func (s service) Create`. -/
def service.Create {σ : Type} (r : Repository σ) (post : Post) (s : σ) :
    (Post × String × Option Error) × σ :=
  match post.Validate with
  | some err => ((post, "", some err), s)
  | none => r.Create post s

/-- Go `func (s service) GetAll`. -/
def service.GetAll {σ : Type} (r : Repository σ) (page limit : Int) (s : σ) :
    (List Post × Int × Option Error) × σ :=
  let page := if page ≤ 0 then 1 else page
  let limit := if limit ≤ 0 then 10 else limit
  r.GetAll page limit s

/-- Go `func (s service) GetByID`. -/
def service.GetByID {σ : Type} (r : Repository σ) (id : String) (s : σ) :
    (Option Post × Option Error) × σ :=
  r.GetByID id s

/-- Go `func (s service) Update`. -/
def service.Update {σ : Type} (r : Repository σ) (post : Post) (s : σ) :
    (Post × Option Error) × σ :=
  match post.Validate with
  | some err => ((post, some err), s)
  | none => r.Update post s

/-- Go `func (s service) Delete`. -/
def service.Delete {σ : Type} (r : Repository σ) (id : String) (s : σ) :
    Option Error × σ :=
  r.Delete id s

/-- Go `func (s service) Search`. -/
def service.Search {σ : Type} (r : Repository σ) (query : String) (page limit : Int) (s : σ) :
    (List Post × Int × Option Error) × σ :=
  let page := if page ≤ 0 then 1 else page
  let limit := if limit ≤ 0 then 10 else limit
  r.Search query page limit s

/-- Go `func (s service) GetRecent`. -/
def service.GetRecent {σ : Type} (r : Repository σ) (limit : Int) (s : σ) :
    (List Post × Option Error) × σ :=
  let limit := if limit ≤ 0 then 5 else limit
  r.GetRecent limit s

/-- One call received by a repository, with its arguments. -/
inductive Call where
  | Create (p : Post)
  | GetAll (page limit : Int)
  | GetByID (id : String)
  | Update (p : Post)
  | Delete (id : String)
  | Search (query : String) (page limit : Int)
  | GetRecent (limit : Int)
  deriving DecidableEq, Repr

/-- A repository in the manner of `mockRepo` in `service_test.go`: its state is
the log of the calls it has received, every method appends its call to the log
and answers with fixed values (`"123"` is the id `TestCreateSuccess` uses). -/
def mockRepo : Repository (List Call) where
  Create := fun p log => ((p, "123", none), log ++ [Call.Create p])
  GetAll := fun page limit log => (([], 0, none), log ++ [Call.GetAll page limit])
  GetByID := fun id log => ((none, none), log ++ [Call.GetByID id])
  Update := fun p log => ((p, none), log ++ [Call.Update p])
  Delete := fun id log => (none, log ++ [Call.Delete id])
  Search := fun q page limit log => (([], 0, none), log ++ [Call.Search q page limit])
  GetRecent := fun limit log => (([], none), log ++ [Call.GetRecent limit])

/-! ## BSON values: object ids, datetimes, documents -/

/-- Go `bson.ObjectID`, a `[12]byte`. -/
abbrev ObjectID := { bytes : List (Fin 256) // bytes.length = 12 }

/-- Go `bson.NilObjectID`, the zero value of `ObjectID`. -/
def NilObjectID : ObjectID := ⟨List.replicate 12 0, by decide⟩

/-- Value of one hex digit, the `reverseHexTable` of `encoding/hex`: both
cases of the letters are accepted. -/
def fromHexChar (c : Char) : Option (Fin 16) :=
  if '0' ≤ c ∧ c ≤ '9' then some (Fin.ofNat (c.toNat - '0'.toNat))
  else if 'a' ≤ c ∧ c ≤ 'f' then some (Fin.ofNat (c.toNat - 'a'.toNat + 10))
  else if 'A' ≤ c ∧ c ≤ 'F' then some (Fin.ofNat (c.toNat - 'A'.toNat + 10))
  else none

/-- Modelled from the spec: `hex.Decode` of the Go library (not in the
repository), the decoding of the hex form of an identifier: two digits per
byte, high digit first; `none` stands for its `InvalidByteError` and
`ErrLength`. -/
def hexDecode : List Char → Option (List (Fin 256))
  | [] => some []
  | [_] => none
  | p :: q :: rest =>
    match fromHexChar p, fromHexChar q, hexDecode rest with
    | some a, some b, some bs => some (Fin.ofNat (a.val * 16 + b.val) :: bs)
    | _, _, _ => none

/-- Modelled from the spec: `bson.ObjectIDFromHex` of the BSON library (not in
the repository), the parse of an id into the native identifier that fails on
malformed input.  `len(s)` counts bytes, hence `utf8ByteSize`.
The digits are read from the characters of `s`; a character outside ASCII is
no hex digit, just as none of its bytes is.  The last `else` cannot be reached
(24 bytes that are all hex digits decode to 12 bytes). -/
def ObjectIDFromHex (s : String) : Except Error ObjectID :=
  if s.utf8ByteSize ≠ 24 then Except.error Error.ErrInvalidHex
  else
    match hexDecode s.data with
    | none => Except.error Error.hexDecode
    | some bytes =>
      if h : bytes.length = 12 then Except.ok ⟨bytes, h⟩ else Except.error Error.hexDecode

/-- The lower-case hex digit of a value below 16 (`hextable` of `encoding/hex`). -/
def hexDigit (n : Nat) : Char := "0123456789abcdef".data.getD n '0'

/-- Modelled from the spec: `ObjectID.Hex` of the BSON library (not in the
repository), the external string form of the native identifier: 24
lower-case hex digits. -/
def ObjectID.Hex (id : ObjectID) : String :=
  String.mk (id.val.flatMap fun b => [hexDigit (b.val / 16), hexDigit (b.val % 16)])

/-- The BSON value types that occur in a post document. -/
inductive BsonValue where
  | objectID (id : ObjectID)
  | string (s : String)
  /-- A BSON datetime: milliseconds since the Unix epoch. -/
  | dateTime (ms : Int)
  deriving DecidableEq, Repr

/-- Go `bson.D`, an ordered document. -/
abbrev BsonD := List (String × BsonValue)

/-- Modelled from the spec: the BSON library encoding a `time.Time` (not in the
repository), with the millisecond truncation of the serialization contract:
whole milliseconds, the rest of the nanoseconds dropped (rounding towards the
past).  The library computes `t.Unix()*1e3 + int64(t.Nanosecond())/1e6` in
`int64`, so the milliseconds of an instant too far from 1970 wrap around. -/
def toDateTime (t : Time) : Int :=
  wrap64 (wrap64 (t / 1000000000) * 1000 + t % 1000000000 / 1000000)

/-- An instant the BSON datetime holds without wrapping: its milliseconds
since the Unix epoch fit an `int64` (some 292 million years either side of
1970). -/
def fitsDateTime (t : Time) : Prop := -2 ^ 63 ≤ t / 1000000 ∧ t / 1000000 < 2 ^ 63

instance fitsDateTime.decidable (t : Time) : Decidable (fitsDateTime t) :=
  inferInstanceAs (Decidable (_ ∧ _))

/-- Modelled from the spec: the BSON library decoding a datetime into a
`time.Time` (not in the repository). -/
def ofDateTime (ms : Int) : Time := ms * 1000000

/-- The zero `time.Time` of Go (January 1, year 1, 00:00 UTC). -/
def zeroTime : Time := -62135596800000000000

/-- Go `func (p *Post) MarshalBSON() ([]byte, error)`; the bytes are kept as
the document they encode. -/
def Post.MarshalBSON (p : Post) : Except Error BsonD :=
  if p.ID = "" then
    Except.ok [
      ("title", BsonValue.string p.Title),
      ("content", BsonValue.string p.Content),
      ("created_at", BsonValue.dateTime (toDateTime p.CreatedAt)),
      ("updated_at", BsonValue.dateTime (toDateTime p.UpdatedAt))]
  else
    match ObjectIDFromHex p.ID with
    | Except.error err => Except.error err
    | Except.ok objectID =>
      Except.ok [
        ("_id", BsonValue.objectID objectID),
        ("title", BsonValue.string p.Title),
        ("content", BsonValue.string p.Content),
        ("created_at", BsonValue.dateTime (toDateTime p.CreatedAt)),
        ("updated_at", BsonValue.dateTime (toDateTime p.UpdatedAt))]

/-- The `mongoPost` struct of `entity.go`. -/
structure mongoPost where
  ID : ObjectID
  Title : String
  Content : String
  CreatedAt : Time
  UpdatedAt : Time
  deriving DecidableEq, Repr

/-- The zero value of `mongoPost`, what `var tmp mongoPost` holds. -/
def mongoPost.zero : mongoPost := ⟨NilObjectID, "", "", zeroTime, zeroTime⟩

/-- One element of a document decoded into a `mongoPost` by its `bson` struct
tags: an element with a tagged key sets that field when its value has the
field's type and is a decode error otherwise; any other element is skipped. -/
def mongoPost.setField (m : mongoPost) (kv : String × BsonValue) : Except Error mongoPost :=
  if kv.1 = "_id" then
    match kv.2 with
    | BsonValue.objectID id => Except.ok { m with ID := id }
    | _ => Except.error (Error.driver "error decoding key _id")
  else if kv.1 = "title" then
    match kv.2 with
    | BsonValue.string s => Except.ok { m with Title := s }
    | _ => Except.error (Error.driver "error decoding key title")
  else if kv.1 = "content" then
    match kv.2 with
    | BsonValue.string s => Except.ok { m with Content := s }
    | _ => Except.error (Error.driver "error decoding key content")
  else if kv.1 = "created_at" then
    match kv.2 with
    | BsonValue.dateTime ms => Except.ok { m with CreatedAt := ofDateTime ms }
    | _ => Except.error (Error.driver "error decoding key created_at")
  else if kv.1 = "updated_at" then
    match kv.2 with
    | BsonValue.dateTime ms => Except.ok { m with UpdatedAt := ofDateTime ms }
    | _ => Except.error (Error.driver "error decoding key updated_at")
  else Except.ok m

/-- Modelled from the spec: `bson.Unmarshal(data, &tmp)` of the BSON library
(not in the repository) for a `tmp` of type `mongoPost`, the decoding of a
stored record. -/
def unmarshalMongoPost : BsonD → mongoPost → Except Error mongoPost
  | [], m => Except.ok m
  | kv :: rest, m =>
    match m.setField kv with
    | Except.error err => Except.error err
    | Except.ok m1 => unmarshalMongoPost rest m1

/-- Go `func (p *Post) UnmarshalBSON(data []byte) error`; on success every
field of `*p` is overwritten, so the result does not depend on the old `*p`. -/
def Post.UnmarshalBSON (data : BsonD) : Except Error Post :=
  match unmarshalMongoPost data mongoPost.zero with
  | Except.error err => Except.error err
  | Except.ok tmp =>
    Except.ok {
      ID := tmp.ID.Hex
      Title := tmp.Title
      Content := tmp.Content
      CreatedAt := tmp.CreatedAt
      UpdatedAt := tmp.UpdatedAt }

/-! ## The MongoDB collection `posts`

The driver and the server are not part of the repository.  They are modelled
to the extent `repo.go` uses them: a collection is the list of its documents
in insertion order, and the driver calls below answer as a reachable server
does.  Failures of the connection are not modelled. -/

/-- A document of the collection `posts`: the five fields of the persisted
record, the two datetimes in milliseconds. -/
structure Doc where
  id : ObjectID
  title : String
  content : String
  created_at : Int
  updated_at : Int
  deriving DecidableEq, Repr

/-- The BSON form of a stored document, as the server returns it. -/
def Doc.toBson (d : Doc) : BsonD := [
  ("_id", BsonValue.objectID d.id),
  ("title", BsonValue.string d.title),
  ("content", BsonValue.string d.content),
  ("created_at", BsonValue.dateTime d.created_at),
  ("updated_at", BsonValue.dateTime d.updated_at)]

/-- The regular-expression engine of the server (PCRE): a pattern, read with
the options of its `$options`, either fails to compile or yields the predicate
"the pattern matches somewhere in this string". -/
abbrev RegexEngine := (pattern : String) → (options : String) → Except Error (String → Bool)

/-- A handle on the collection: the server's regular-expression engine and the
documents, in insertion order. -/
structure Collection where
  regex : RegexEngine
  docs : List Doc

/-- The two text fields a filter of `repo.go` looks at. -/
inductive Field where
  | title
  | content
  deriving DecidableEq, Repr

/-- The text of a field of a document. -/
def Field.get (f : Field) (d : Doc) : String :=
  match f with
  | Field.title => d.title
  | Field.content => d.content

/-- The query filters `repo.go` builds. -/
inductive Filter where
  /-- The empty filter `bson.D{}`. -/
  | all
  /-- The filter `bson.M{"_id": objID}`. -/
  | idEq (objID : ObjectID)
  /-- The filter `{field: {"$regex": pattern, "$options": options}}`. -/
  | regex (field : Field) (pattern : String) (options : String)
  /-- The filter `{"$or": [a, b]}`. -/
  | or (a b : Filter)

/-- Modelled from the spec: the server (not in the repository) reading a
filter.  Every regular expression in it is compiled, and a pattern that does
not compile fails the whole command. -/
def Filter.compile (re : RegexEngine) : Filter → Except Error (Doc → Bool)
  | Filter.all => Except.ok fun _ => true
  | Filter.idEq objID => Except.ok fun d => decide (d.id = objID)
  | Filter.regex field pattern options =>
    match re pattern options with
    | Except.error err => Except.error err
    | Except.ok m => Except.ok fun d => m (field.get d)
  | Filter.or a b =>
    match Filter.compile re a with
    | Except.error err => Except.error err
    | Except.ok ma =>
      match Filter.compile re b with
      | Except.error err => Except.error err
      | Except.ok mb => Except.ok fun d => ma d || mb d

/-- Go `options.FindOptions`, the three settings `repo.go` uses.  The only
sort it asks for is `bson.D{{Key: "created_at", Value: -1}}`. -/
structure FindOptions where
  Skip : Int
  Limit : Int
  SortCreatedAtDesc : Bool
  deriving DecidableEq, Repr

/-- Go `options.Find()`: nothing skipped, no limit, no sort. -/
def options.Find : FindOptions := ⟨0, 0, false⟩

/-- Go `SetSkip`. -/
def FindOptions.SetSkip (o : FindOptions) (skip : Int) : FindOptions := { o with Skip := skip }

/-- Go `SetLimit`. -/
def FindOptions.SetLimit (o : FindOptions) (limit : Int) : FindOptions := { o with Limit := limit }

/-- Go `SetSort(bson.D{{Key: "created_at", Value: -1}})`. -/
def FindOptions.SetSortCreatedAtDesc (o : FindOptions) : FindOptions :=
  { o with SortCreatedAtDesc := true }

/-- Order of the sort `created_at: -1`: `a` may come before `b`. -/
def Doc.newerEq (a b : Doc) : Prop := b.created_at ≤ a.created_at

instance Doc.decidableNewerEq : DecidableRel Doc.newerEq :=
  fun a b => inferInstanceAs (Decidable (b.created_at ≤ a.created_at))

/-- Modelled from the spec: the server (not in the repository) sorting by
`created_at` descending.  Documents with equal
`created_at` stay in insertion order here; the server promises no particular
order among them. -/
def sortCreatedAtDesc (l : List Doc) : List Doc := l.insertionSort Doc.newerEq

/-- Modelled from the spec: the limit of a find in the driver (not in the
repository), up to `limit` records; `0` is no limit, and the driver sends a
negative limit as its absolute value. -/
def applyLimit (limit : Int) (l : List Doc) : List Doc :=
  if limit = 0 then l else l.take limit.natAbs

/-- Modelled from the spec: `coll.CountDocuments(ctx, filter)` of the driver (not
in the repository), the number of documents matching the filter. -/
def Collection.CountDocuments (c : Collection) (filter : Filter) : Except Error Int :=
  match filter.compile c.regex with
  | Except.error err => Except.error err
  | Except.ok m => Except.ok ((c.docs.filter m).length : Int)

/-- Modelled from the spec: `coll.Find(ctx, filter, opts)` of the driver (not in
the repository), as the documents the cursor will deliver:
the matching ones, sorted, then skipped, then limited.  The server rejects a
negative skip. -/
def Collection.Find (c : Collection) (filter : Filter) (opts : FindOptions) :
    Except Error (List Doc) :=
  match filter.compile c.regex with
  | Except.error err => Except.error err
  | Except.ok m =>
    if opts.Skip < 0 then Except.error (Error.driver "skip value must be non-negative")
    else
      let matched := c.docs.filter m
      let sorted := if opts.SortCreatedAtDesc then sortCreatedAtDesc matched else matched
      Except.ok (applyLimit opts.Limit (sorted.drop opts.Skip.toNat))

/-- Modelled from the spec: `cursor.All(ctx, &posts)` of the driver (not in the
repository) for `posts []*post.Post`: every document of
the cursor is decoded by `Post.UnmarshalBSON`; a failure ends the decoding
with that error and `posts` is not assigned. -/
def cursorAll : List Doc → List Post × Option Error
  | [] => ([], none)
  | d :: rest =>
    match Post.UnmarshalBSON d.toBson with
    | Except.error err => ([], some err)
    | Except.ok p =>
      match cursorAll rest with
      | (_, some err) => ([], some err)
      | (ps, none) => (p :: ps, none)

/-- Modelled from the spec: `coll.FindOne(ctx, filter).Decode(&post)` of the
driver (not in the repository): the first matching document
decoded by `Post.UnmarshalBSON`, `mongo.ErrNoDocuments` when nothing matches. -/
def Collection.FindOneDecode (c : Collection) (filter : Filter) : Except Error Post :=
  match filter.compile c.regex with
  | Except.error err => Except.error err
  | Except.ok m =>
    match c.docs.find? m with
    | none => Except.error Error.ErrNoDocuments
    | some d => Post.UnmarshalBSON d.toBson

/-- Modelled from the spec: `coll.InsertOne(ctx, doc)` of the driver (not in the
repository) for an already marshalled document.  A
document without `_id` gets the object id `fresh` that the driver generates;
an `_id` already in the collection is a duplicate-key error.  The result is
the `InsertedID` and the collection with the document appended. -/
def Collection.InsertOne (c : Collection) (fresh : ObjectID) (doc : BsonD) :
    Except Error (BsonValue × Collection) :=
  let id := (doc.lookup "_id").getD (BsonValue.objectID fresh)
  match id, doc.lookup "title", doc.lookup "content",
      doc.lookup "created_at", doc.lookup "updated_at" with
  | BsonValue.objectID objID, some (BsonValue.string title), some (BsonValue.string content),
      some (BsonValue.dateTime createdAt), some (BsonValue.dateTime updatedAt) =>
    if c.docs.any (fun d => decide (d.id = objID)) then
      Except.error (Error.driver "E11000 duplicate key error")
    else
      Except.ok (BsonValue.objectID objID,
        { c with docs := c.docs ++ [⟨objID, title, content, createdAt, updatedAt⟩] })
  | _, _, _, _, _ => Except.error (Error.driver "not a post document")

/-- One assignment of a `$set`: the named field takes the value.  The adapter
only assigns `title`, `content` and `updated_at`, with values of their types;
anything else leaves the document as it is here. -/
def Doc.set (d : Doc) (kv : String × BsonValue) : Doc :=
  if kv.1 = "title" then
    match kv.2 with
    | BsonValue.string s => { d with title := s }
    | _ => d
  else if kv.1 = "content" then
    match kv.2 with
    | BsonValue.string s => { d with content := s }
    | _ => d
  else if kv.1 = "updated_at" then
    match kv.2 with
    | BsonValue.dateTime ms => { d with updated_at := ms }
    | _ => d
  else d

/-- Replace the first element that satisfies `m` by its image under `f`. -/
def updateFirst (m : Doc → Bool) (f : Doc → Doc) : List Doc → List Doc
  | [] => []
  | d :: rest => if m d then f d :: rest else d :: updateFirst m f rest

/-- Go `mongo.UpdateResult`, the field `repo.go` reads. -/
structure UpdateResult where
  MatchedCount : Int
  deriving DecidableEq, Repr

/-- Go `mongo.DeleteResult`. -/
structure DeleteResult where
  DeletedCount : Int
  deriving DecidableEq, Repr

/-- Modelled from the spec: `coll.UpdateOne(ctx, filter, bson.M{"$set": set})` of
the driver (not in the repository), a partial update: the first matching
document gets the assignments; `MatchedCount` is 1 or 0. -/
def Collection.UpdateOne (c : Collection) (filter : Filter) (set : BsonD) :
    Except Error (UpdateResult × Collection) :=
  match filter.compile c.regex with
  | Except.error err => Except.error err
  | Except.ok m =>
    Except.ok (⟨if c.docs.any m then 1 else 0⟩,
      { c with docs := updateFirst m (fun d => set.foldl Doc.set d) c.docs })

/-- Modelled from the spec: `coll.DeleteOne(ctx, filter)` of the driver (not in
the repository): the first matching document is removed. -/
def Collection.DeleteOne (c : Collection) (filter : Filter) :
    Except Error (DeleteResult × Collection) :=
  match filter.compile c.regex with
  | Except.error err => Except.error err
  | Except.ok m =>
    Except.ok (⟨if c.docs.any m then 1 else 0⟩, { c with docs := c.docs.eraseP m })

/-! ## internal/storage/mongo/post/repo.go

Every method takes the collection it works on; the methods that write return
the collection they leave behind.  `now` is the value `time.Now()` returns in
the call and `fresh` the object id the driver generates for a document
without one. -/

/-- The expression `max((page-1)*limit, 0)` of `repo.GetAll` and
`repo.Search`, in `int64` arithmetic. -/
def repo.skip (page limit : Int) : Int := max (wrap64 (wrap64 (page - 1) * limit)) 0

/-- Go `func (r repo) Create`. -/
def repo.Create (coll : Collection) (now : Time) (fresh : ObjectID) (p : Post) :
    (Post × String × Option Error) × Collection :=
  let p := { p with CreatedAt := now, UpdatedAt := now }
  match p.MarshalBSON with
  | Except.error err => ((p, "", some err), coll)
  | Except.ok doc =>
    match coll.InsertOne fresh doc with
    | Except.error err => ((p, "", some err), coll)
    | Except.ok (insertedID, coll1) =>
      match insertedID with
      | BsonValue.objectID oid => ((p, oid.Hex, none), coll1)
      | _ => ((p, "", some Error.insertedID), coll1)

/-- Go `func (r repo) GetAll`. -/
def repo.GetAll (coll : Collection) (page limit : Int) : List Post × Int × Option Error :=
  let skip := repo.skip page limit
  let opts := ((options.Find.SetSkip skip).SetLimit limit).SetSortCreatedAtDesc
  match coll.CountDocuments Filter.all with
  | Except.error err => ([], 0, some err)
  | Except.ok total =>
    match coll.Find Filter.all opts with
    | Except.error err => ([], 0, some err)
    | Except.ok cursor =>
      match cursorAll cursor with
      | (posts, err) => (posts, total, err)

/-- Go `func (r repo) GetByID`. -/
def repo.GetByID (coll : Collection) (id : String) : Option Post × Option Error :=
  match ObjectIDFromHex id with
  | Except.error err => (none, some err)
  | Except.ok objID =>
    match coll.FindOneDecode (Filter.idEq objID) with
    | Except.error err =>
      if err = Error.ErrNoDocuments then (none, some Error.ErrPostNotFound)
      else (none, some err)
    | Except.ok post => (some post, none)

/-- Go `func (r repo) Update`. -/
def repo.Update (coll : Collection) (now : Time) (p : Post) :
    (Post × Option Error) × Collection :=
  match ObjectIDFromHex p.ID with
  | Except.error err => ((p, some err), coll)
  | Except.ok objID =>
    let p := { p with UpdatedAt := now }
    let set : BsonD := [
      ("title", BsonValue.string p.Title),
      ("content", BsonValue.string p.Content),
      ("updated_at", BsonValue.dateTime (toDateTime p.UpdatedAt))]
    match coll.UpdateOne (Filter.idEq objID) set with
    | Except.error err => ((p, some err), coll)
    | Except.ok (result, coll1) =>
      if result.MatchedCount = 0 then ((p, some Error.ErrPostNotFound), coll1)
      else ((p, none), coll1)

/-- Go `func (r repo) Delete`. -/
def repo.Delete (coll : Collection) (id : String) : Option Error × Collection :=
  match ObjectIDFromHex id with
  | Except.error err => (some err, coll)
  | Except.ok objID =>
    match coll.DeleteOne (Filter.idEq objID) with
    | Except.error err => (some err, coll)
    | Except.ok (result, coll1) =>
      if result.DeletedCount = 0 then (some Error.ErrPostNotFound, coll1)
      else (none, coll1)

/-- The filter `repo.Search` builds from the query. -/
def repo.searchFilter (query : String) : Filter :=
  Filter.or (Filter.regex Field.title query "i") (Filter.regex Field.content query "i")

/-- Go `func (r repo) Search`. -/
def repo.Search (coll : Collection) (query : String) (page limit : Int) :
    List Post × Int × Option Error :=
  let skip := repo.skip page limit
  let filter := repo.searchFilter query
  match coll.CountDocuments filter with
  | Except.error err => ([], 0, some err)
  | Except.ok total =>
    let opts := ((options.Find.SetSkip skip).SetLimit limit).SetSortCreatedAtDesc
    match coll.Find filter opts with
    | Except.error err => ([], 0, some err)
    | Except.ok cursor =>
      match cursorAll cursor with
      | (posts, err) => (posts, total, err)

/-- Go `func (r repo) GetRecent`. -/
def repo.GetRecent (coll : Collection) (limit : Int) : List Post × Option Error :=
  let opts := (options.Find.SetLimit limit).SetSortCreatedAtDesc
  match coll.Find Filter.all opts with
  | Except.error err => ([], some err)
  | Except.ok cursor => cursorAll cursor

/-! ## A regular-expression engine for plain patterns

The part of PCRE that needs no more than reading the pattern left to right:
ordinary characters, the dot, and a backslash in front of a punctuation
character.  Every other pattern is handed to another engine. -/

/-- One position of a plain pattern. -/
inductive Atom where
  /-- This character, in either case. -/
  | lit (c : Char)
  /-- The dot: any character but a line feed. -/
  | any
  deriving DecidableEq, Repr

/-- What reading a pattern gives. -/
inductive Parsed where
  /-- A plain pattern, as its atoms. -/
  | atoms (as : List Atom)
  /-- A pattern PCRE rejects: it ends in a lone backslash. -/
  | invalid
  /-- A pattern with a construct outside the plain ones. -/
  | beyond
  deriving DecidableEq, Repr

/-- Put an atom in front of what the rest of the pattern gave. -/
def Parsed.cons (a : Atom) : Parsed → Parsed
  | Parsed.atoms as => Parsed.atoms (a :: as)
  | Parsed.invalid => Parsed.invalid
  | Parsed.beyond => Parsed.beyond

/-- The characters that are, or may be, more than themselves in a pattern:
the PCRE metacharacters, the closing brackets, and NUL. -/
def regexSpecial : List Char :=
  ['\\', '^', '$', '.', '[', ']', '|', '(', ')', '*', '+', '?', '{', '}', Char.ofNat 0]

/-- Read a pattern.  A backslash makes a following ASCII punctuation or space
character literal; in front of a letter, a digit or a character outside
ASCII it is left to the other engine. -/
def parsePattern : List Char → Parsed
  | [] => Parsed.atoms []
  | [c] =>
    if c = '\\' then Parsed.invalid
    else if c = '.' then Parsed.atoms [Atom.any]
    else if c ∈ regexSpecial then Parsed.beyond
    else Parsed.atoms [Atom.lit c]
  | c :: e :: rest =>
    if c = '\\' then
      if e.isAlphanum ∨ e = Char.ofNat 0 ∨ 128 ≤ e.toNat then Parsed.beyond
      else (parsePattern rest).cons (Atom.lit e)
    else if c = '.' then (parsePattern (e :: rest)).cons Atom.any
    else if c ∈ regexSpecial then Parsed.beyond
    else (parsePattern (e :: rest)).cons (Atom.lit c)

/-- Whether an atom accepts a character of the subject; `fold` maps the
characters that differ only in case to one of them. -/
def Atom.accepts (fold : Char → Char) : Atom → Char → Bool
  | Atom.lit c, d => decide (fold c = fold d)
  | Atom.any, d => decide (d ≠ '\n')

/-- The atoms match at the start of the subject. -/
def matchHere (fold : Char → Char) : List Atom → List Char → Bool
  | [], _ => true
  | _ :: _, [] => false
  | a :: as, d :: ds => a.accepts fold d && matchHere fold as ds

/-- The atoms match somewhere in the subject. -/
def matchAnywhere (fold : Char → Char) (as : List Atom) : List Char → Bool
  | [] => matchHere fold as []
  | d :: ds => matchHere fold as (d :: ds) || matchAnywhere fold as ds

/-- Case folding of the option `i`: an ASCII letter goes to its lower case and
every other ASCII character to itself; what a character outside ASCII goes to
is the server's Unicode table, `unicode`. -/
def caseFold (unicode : Char → Char) (c : Char) : Char :=
  if c.toNat < 128 then c.toLower else unicode c

/-- The folding a pattern is matched under: with the option `i` letters match
in either case, without it every character matches only itself. -/
def regexFold (unicode : Char → Char) (options : String) : Char → Char :=
  if 'i' ∈ options.data then caseFold unicode else id

/-- The engine: plain patterns with no option or with the option `i` alone are
matched here; a pattern ending in a lone backslash does not compile; every
other pattern, and every other choice of options, goes to `other`. -/
def plainRegex (unicode : Char → Char) (other : RegexEngine) : RegexEngine :=
  fun pattern options =>
    if options ≠ "" ∧ options ≠ "i" then other pattern options
    else
      match parsePattern pattern.data with
      | Parsed.atoms as =>
        Except.ok fun subject => matchAnywhere (regexFold unicode options) as subject.data
      | Parsed.invalid => Except.error (Error.driver "Regular expression is invalid")
      | Parsed.beyond => other pattern options

/-- An engine that compiles nothing, to stand behind `plainRegex` where only
plain patterns are looked at. -/
def noRegex : RegexEngine := fun _ _ => Except.error (Error.driver "pattern not supported")

/-- A collection served with `plainRegex` where only ASCII letters have two
cases. -/
def plainCollection (docs : List Doc) : Collection := ⟨plainRegex id noRegex, docs⟩

/-- The words of the specification for a search hit: `text` contains `query`
as a substring, case-insensitively under `fold`. -/
def containsCI (fold : Char → Char) (text query : String) : Prop :=
  List.IsInfix (query.data.map fold) (text.data.map fold)

instance containsCI.decidable (fold : Char → Char) (text query : String) :
    Decidable (containsCI fold text query) :=
  inferInstanceAs (Decidable (List.IsInfix _ _))

/-- A query made of ordinary characters only. -/
def plainQuery (query : String) : Prop := ∀ c ∈ query.data, c ∉ regexSpecial

instance plainQuery.decidable (query : String) : Decidable (plainQuery query) :=
  inferInstanceAs (Decidable (∀ c ∈ query.data, c ∉ regexSpecial))

/-! ## Reading the collection through the adapter -/

/-- The post a stored document decodes to: the id in hex, the datetimes as
times. -/
def Doc.toPost (d : Doc) : Post where
  ID := d.id.Hex
  Title := d.title
  Content := d.content
  CreatedAt := ofDateTime d.created_at
  UpdatedAt := ofDateTime d.updated_at

/-- The largest `int64`. -/
def maxInt64 : Int := 2 ^ 63 - 1

/-! ## Well-formed identifiers -/

/-- A hex digit, in either case. -/
def isHexDigit (c : Char) : Prop :=
  ('0' ≤ c ∧ c ≤ '9') ∨ ('a' ≤ c ∧ c ≤ 'f') ∨ ('A' ≤ c ∧ c ≤ 'F')

instance isHexDigit.decidable (c : Char) : Decidable (isHexDigit c) :=
  inferInstanceAs (Decidable (_ ∨ _ ∨ _))

/-- The words of the specification for a well-formed identifier: a string of
24 hex digits. -/
def wellFormedID (s : String) : Prop := s.length = 24 ∧ ∀ c ∈ s.data, isHexDigit c

instance wellFormedID.decidable (s : String) : Decidable (wellFormedID s) :=
  inferInstanceAs (Decidable (_ ∧ _))

/-! ## Go library functions the handler calls

None of them is in the repository; each is modelled as its documentation
describes it. -/

/-- Modelled from the spec: `unicode.IsSpace` of the Go library (not in the
repository), what makes a search term blank: the characters with the Unicode
property White_Space. -/
def unicode.IsSpace (c : Char) : Bool :=
  let n := c.toNat
  decide ((9 ≤ n ∧ n ≤ 13) ∨ n = 32 ∨ n = 133 ∨ n = 160 ∨ n = 5760 ∨
    (8192 ≤ n ∧ n ≤ 8202) ∨ n = 8232 ∨ n = 8233 ∨ n = 8239 ∨ n = 8287 ∨ n = 12288)

/-- Modelled from the spec: `strings.TrimSpace` of the Go library (not in the
repository): the string without its leading and trailing white space. -/
def strings.TrimSpace (s : String) : String :=
  String.mk ((s.data.dropWhile unicode.IsSpace).reverse.dropWhile unicode.IsSpace).reverse

/-- The errors of `strconv.ParseInt`. -/
inductive strconv.NumError where
  /-- Sentinel `strconv.ErrSyntax`: the string is not a number. -/
  | ErrSyntax
  /-- Sentinel `strconv.ErrRange`: the number does not fit the integer type. -/
  | ErrRange
  deriving DecidableEq, Repr

/-- The number a string of decimal digits denotes after the digits `acc`
stands for; `none` when a character is no decimal digit. -/
def decimalDigits : List Char → Nat → Option Nat
  | [], acc => some acc
  | c :: rest, acc =>
    if '0' ≤ c ∧ c ≤ '9' then decimalDigits rest (acc * 10 + (c.toNat - '0'.toNat)) else none

/-- The integer a string denotes in decimal: an optional sign `+` or `-` and at
least one digit; `none` for every other string, the empty one included. -/
def decimalValue (s : String) : Option Int :=
  match s.data with
  | [] => none
  | c :: rest =>
    if c = '-' then
      if rest = [] then none else (decimalDigits rest 0).map fun n => -(n : Int)
    else if c = '+' then
      if rest = [] then none else (decimalDigits rest 0).map fun n => (n : Int)
    else (decimalDigits (c :: rest) 0).map fun n => (n : Int)

/-- Modelled from the spec: `strconv.ParseInt(s, 10, 64)` of the Go library (not
in the repository).  A string that is no decimal integer gives 0 and
`ErrSyntax`; an integer outside the `int64` range gives the nearest `int64`
and `ErrRange`. -/
def strconv.ParseInt (s : String) : Int × Option strconv.NumError :=
  match decimalValue s with
  | none => (0, some strconv.NumError.ErrSyntax)
  | some v =>
    if 2 ^ 63 - 1 < v then (2 ^ 63 - 1, some strconv.NumError.ErrRange)
    else if v < -2 ^ 63 then (-2 ^ 63, some strconv.NumError.ErrRange)
    else (v, none)

/-- Rounding to the nearest integer, a tie going to the even one. -/
def roundHalfEven (x : ℚ) : ℤ :=
  if x - ⌊x⌋ < 1 / 2 then ⌊x⌋
  else if 1 / 2 < x - ⌊x⌋ then ⌊x⌋ + 1
  else if ⌊x⌋ % 2 = 0 then ⌊x⌋
  else ⌊x⌋ + 1

/-- Modelled from the spec: the rounding of IEEE 754 binary64 arithmetic (the
`float64` of Go, not in the repository): the nearest number with a 53-bit
significand, a tie going to the even significand.  Exponent limits are left
out; the numbers met here lie between `2^-63` and `2^63`. -/
def float64.round (x : ℚ) : ℚ :=
  if x = 0 then 0
  else (roundHalfEven (x / 2 ^ (Int.log 2 |x| - 52)) : ℚ) * 2 ^ (Int.log 2 |x| - 52)

/-- Go `float64(n)` for an `int64` value `n`. -/
def float64.ofInt (n : Int) : ℚ := float64.round n

/-- Go `x / y` on `float64` values, `y` not zero. -/
def float64.div (x y : ℚ) : ℚ := float64.round (x / y)

/-- Go `math.Ceil`. -/
def math.Ceil (x : ℚ) : ℚ := ⌈x⌉

/-- Go `int64(x)` for a `float64` value `x`: the fraction is dropped.  For a
value outside the `int64` range the language leaves the result to the
implementation; it is the parameter `outside` here. -/
def float64.toInt64 (outside : Int) (x : ℚ) : Int :=
  if -2 ^ 63 ≤ (if 0 ≤ x then ⌊x⌋ else ⌈x⌉) ∧ (if 0 ≤ x then ⌊x⌋ else ⌈x⌉) < 2 ^ 63 then
    (if 0 ≤ x then ⌊x⌋ else ⌈x⌉)
  else outside

/-- Go `url.Values` and `http.Header`: the values of each key, in order. -/
abbrev Values := List (String × String)

/-- Go `url.Values.Get`: the first value of the key, the empty string when the
key is absent. -/
def Values.Get (v : Values) (key : String) : String := (v.lookup key).getD ""

/-- Modelled from the spec: `textproto.CanonicalMIMEHeaderKey` of the Go library
(not in the repository) for a key of letters, digits and hyphens: the first
letter and every letter after a hyphen in upper case, the others in lower
case. -/
def canonicalHeaderKey : List Char → Bool → List Char
  | [], _ => []
  | c :: rest, upper =>
    (if upper then c.toUpper else c.toLower) :: canonicalHeaderKey rest (decide (c = '-'))

/-- Go `http.Header.Get`: the first value stored under the canonical form of
the key.  The keys of a request's header are stored in canonical form. -/
def Header.Get (h : Values) (key : String) : String :=
  Values.Get h (String.mk (canonicalHeaderKey key.data true))

/-! ## internal/controller/web/v1/post -/

/-- The `service` interface of the handler package (`types.go`): the same
method set as the `repository` interface of the service package. -/
abbrev Service (σ : Type) := Repository σ

/-- A service that records every call it receives, with its arguments, and
passes it on to `svc`. -/
def traced {σ : Type} (svc : Service σ) : Service (σ × List Call) where
  Create := fun p st => ((svc.Create p st.1).1, ((svc.Create p st.1).2, st.2 ++ [Call.Create p]))
  GetAll := fun page limit st =>
    ((svc.GetAll page limit st.1).1,
      ((svc.GetAll page limit st.1).2, st.2 ++ [Call.GetAll page limit]))
  GetByID := fun id st =>
    ((svc.GetByID id st.1).1, ((svc.GetByID id st.1).2, st.2 ++ [Call.GetByID id]))
  Update := fun p st => ((svc.Update p st.1).1, ((svc.Update p st.1).2, st.2 ++ [Call.Update p]))
  Delete := fun id st =>
    ((svc.Delete id st.1).1, ((svc.Delete id st.1).2, st.2 ++ [Call.Delete id]))
  Search := fun q page limit st =>
    ((svc.Search q page limit st.1).1,
      ((svc.Search q page limit st.1).2, st.2 ++ [Call.Search q page limit]))
  GetRecent := fun limit st =>
    ((svc.GetRecent limit st.1).1,
      ((svc.GetRecent limit st.1).2, st.2 ++ [Call.GetRecent limit]))

/-- A service in the manner of `mockService` in `handler_test.go`: it answers
`GetAll` and `Search` with `listing`, `GetByID` with `found`, and everything
else with an empty success. -/
def mockService (listing : List Post × Int × Option Error)
    (found : Option Post × Option Error) : Service Unit where
  Create := fun p s => ((p, "id1", none), s)
  GetAll := fun _ _ s => (listing, s)
  GetByID := fun _ s => (found, s)
  Update := fun p s => ((p, none), s)
  Delete := fun _ s => (none, s)
  Search := fun _ _ _ s => (listing, s)
  GetRecent := fun _ s => (([], none), s)

/-- The part of an `*http.Request` the handlers read. -/
structure Request where
  /-- The decoded query parameters, `r.URL.Query()`. -/
  Query : Values
  /-- The request header, `r.Header`, its keys in canonical form. -/
  Header : Values
  /-- The path parameter `r.PathValue("id")`. -/
  PathID : String

/-- The `ListPageData` struct of `types.go`. -/
structure ListPageData where
  Posts : List Post
  Recent : List Post
  Search : String
  Page : Int
  Limit : Int
  Total : Int
  TotalPages : Int
  Title : String
  Content : String
  Error : String
  deriving DecidableEq, Repr

/-- The `EditFormData` struct of `types.go`. -/
structure EditFormData where
  ID : String
  Title : String
  Content : String
  Error : String
  deriving DecidableEq, Repr

/-- The data a handler hands to a template: one of the view-model structs of
`types.go` or a `*post.Post`, which may be `nil`. -/
inductive TemplateData where
  | listPage (data : ListPageData)
  | editForm (data : EditFormData)
  /-- The struct `PostsData`, a list of `*post.Post`. -/
  | posts (posts : List (Option Post))
  | post (p : Option Post)
  /-- The struct `ErrorData`: the message a form fragment shows. -/
  | error (Error : String)
  deriving DecidableEq, Repr

/-- What a handler does to its `http.ResponseWriter`, its template renderer
and its logger, in order. -/
inductive Event where
  /-- The call `w.Header().Del(key)`. -/
  | DelHeader (key : String)
  /-- The call `w.Header().Set(key, value)`. -/
  | SetHeader (key value : String)
  /-- The call `w.WriteHeader(code)`. -/
  | WriteHeader (code : Nat)
  /-- A write of text to the response body. -/
  | Write (body : String)
  /-- The call `h.tmpl.Render(w, name, data)`; the template writes to the body. -/
  | Render (name : String) (data : TemplateData)
  /-- The call `h.l.Error(msg, "err", err)`. -/
  | Log (msg : String) (err : Error)
  /-- A run-time panic, which ends the handler. -/
  | Panic
  deriving DecidableEq, Repr

/-- Modelled from the spec: `http.Error(w, error, code)` of the Go library (not
in the repository): a plain-text response with the status `code`. -/
def httpError (error : String) (code : Nat) : List Event := [
  Event.DelHeader "Content-Length",
  Event.SetHeader "Content-Type" "text/plain; charset=utf-8",
  Event.SetHeader "X-Content-Type-Options" "nosniff",
  Event.WriteHeader code,
  Event.Write (error ++ "\n")]

/-- Modelled from the spec: `http.NotFound(w, r)` of the Go library (not in the
repository), the HTTP 404 response. -/
def httpNotFound : List Event := httpError "404 page not found" 404

/-- Modelled from the spec: the status code of the response the HTTP server of
the Go library (not in the repository) sends for what the handler did: the
code of `WriteHeader` when that comes before any write to the body, 200
otherwise; `none` when the handler panics before that. -/
def statusCode : List Event → Option Nat
  | [] => some 200
  | Event.WriteHeader code :: _ => some code
  | Event.Write _ :: _ => some 200
  | Event.Render _ _ :: _ => some 200
  | Event.Panic :: _ => none
  | _ :: rest => statusCode rest

/-- What a handler did, in order. -/
abbrev Events := List Event

/-- The names of the templates rendered, in order. -/
def renderedNames : List Event → List String
  | [] => []
  | Event.Render name _ :: rest => name :: renderedNames rest
  | _ :: rest => renderedNames rest

/-- Go `func (h handler) List`.  `outside` is what `int64(x)` gives on this
machine for a `float64` outside the `int64` range. -/
def handler.List {σ : Type} (svc : Service σ) (outside : Int) (r : Request) (s : σ) :
    Events × σ :=
  let q := r.Query.Get "q"
  let page := (strconv.ParseInt (r.Query.Get "page")).1
  let page := if page < 1 then 1 else page
  let limit := (strconv.ParseInt (r.Query.Get "limit")).1
  let limit := if limit < 1 then 3 else limit
  let primary :=
    if strings.TrimSpace q ≠ "" then svc.Search q page limit s else svc.GetAll page limit s
  match primary with
  | ((_, _, some err), s1) =>
    (Event.Log "List error" err :: httpError "server error" 422, s1)
  | ((posts, total, none), s1) =>
    match svc.GetRecent 5 s1 with
    | ((recent, _), s2) =>
      let totalPages :=
        if limit > 0 then
          float64.toInt64 outside
            (math.Ceil (float64.div (float64.ofInt total) (float64.ofInt limit)))
        else 1
      let data : ListPageData := {
        Posts := posts
        Recent := recent
        Search := q
        Page := page
        Limit := limit
        Total := total
        TotalPages := max totalPages 1
        Title := ""
        Content := ""
        Error := "" }
      if Header.Get r.Header "HX-Request" = "true" then
        ([Event.Render "list" (TemplateData.listPage data),
          Event.Render "pagination" (TemplateData.listPage data)], s2)
      else ([Event.Render "base" (TemplateData.listPage data)], s2)

/-- Go `func (h handler) EditForm`.  A `nil` post returned without an error
makes `p.ID` panic. -/
def handler.EditForm {σ : Type} (svc : Service σ) (r : Request) (s : σ) : Events × σ :=
  let id := r.PathID
  match svc.GetByID id s with
  | ((_, some _), s1) => (httpNotFound, s1)
  | ((none, none), s1) => ([Event.Panic], s1)
  | ((some p, none), s1) =>
    ([Event.Render "edit_form" (TemplateData.editForm ⟨p.ID, p.Title, p.Content, ""⟩)], s1)

/-- Go `func (h handler) Show`. -/
def handler.Show {σ : Type} (svc : Service σ) (r : Request) (s : σ) : Events × σ :=
  let id := r.PathID
  match svc.GetByID id s with
  | ((_, some _), s1) => (httpNotFound, s1)
  | ((p, none), s1) =>
    if Header.Get r.Header "HX-Request" = "true" then
      ([Event.Render "show" (TemplateData.post p)], s1)
    else ([Event.Render "base" (TemplateData.posts [p])], s1)

/-- Go `err.Error()`, the message of an error.  The hex decoding error is kept
without the byte it names. -/
def Error.Error : Error → String
  | Error.ErrEmptyTitle => "post title cannot be empty"
  | Error.ErrEmptyContent => "post content cannot be empty"
  | Error.ErrPostNotFound => "post not found"
  | Error.ErrInvalidHex => "the provided hex string is not a valid ObjectID"
  | Error.ErrNoDocuments => "mongo: no documents in result"
  | Error.hexDecode => "encoding/hex: invalid byte"
  | Error.insertedID => "failed to get inserted ID"
  | Error.driver msg => msg

/-- A request with a form: what the handlers `Create` and `Update` read.  `Form`
is `r.Form` as `r.ParseForm()` leaves it, `none` when `ParseForm` fails. -/
structure FormRequest extends Request where
  Form : Option Values

/-- Go `func (h handler) Create`.  The post handed to the service has only
title and content set. -/
def handler.Create {σ : Type} (svc : Service σ) (r : FormRequest) (s : σ) : Events × σ :=
  match r.Form with
  | none => (httpError "bad form" 400, s)
  | some form =>
    let p : Post := ⟨"", form.Get "title", form.Get "content", zeroTime, zeroTime⟩
    match svc.Create p s with
    | ((_, _, some err), s1) =>
      ([Event.Log "Create error" err,
        Event.Render "form" (TemplateData.error err.Error)], s1)
    | ((_, id, none), s1) =>
      match svc.GetByID id s1 with
      | ((created, _), s2) =>
        ([Event.SetHeader "HX-Trigger" "postCreated",
          Event.Render "item" (TemplateData.post created)], s2)

/-- Go `func (h handler) Update`. -/
def handler.Update {σ : Type} (svc : Service σ) (r : FormRequest) (s : σ) : Events × σ :=
  let id := r.PathID
  match r.Form with
  | none => (httpError "bad form" 400, s)
  | some form =>
    let p : Post := ⟨id, form.Get "title", form.Get "content", zeroTime, zeroTime⟩
    match svc.Update p s with
    | ((_, some err), s1) =>
      ([Event.Log "Update error" err,
        Event.Render "edit_form" (TemplateData.error err.Error)], s1)
    | ((_, none), s1) =>
      match svc.GetByID id s1 with
      | ((updated, _), s2) => ([Event.Render "item" (TemplateData.post updated)], s2)

/-- The response headers a handler set, in order. -/
def headersSet : Events → List (String × String)
  | [] => []
  | Event.SetHeader key value :: rest => (key, value) :: headersSet rest
  | _ :: rest => headersSet rest


/-- The page number `handler.List` works with: the `page` parameter as
`strconv.ParseInt` reads it, 1 when that is below 1. -/
def listPage (query : Values) : Int :=
  if (strconv.ParseInt (query.Get "page")).1 < 1 then 1
  else (strconv.ParseInt (query.Get "page")).1

/-- The limit `handler.List` works with: the `limit` parameter as
`strconv.ParseInt` reads it, 3 when that is below 1. -/
def listLimit (query : Values) : Int :=
  if (strconv.ParseInt (query.Get "limit")).1 < 1 then 3
  else (strconv.ParseInt (query.Get "limit")).1

/-- The primary query of `handler.List`: `Search` for a search term that is not
blank, `GetAll` otherwise. -/
def listQuery {σ : Type} (svc : Service σ) (query : Values) (s : σ) :
    (List Post × Int × Option Error) × σ :=
  if strings.TrimSpace (query.Get "q") ≠ "" then
    svc.Search (query.Get "q") (listPage query) (listLimit query) s
  else svc.GetAll (listPage query) (listLimit query) s

/-- The words of the specification for a search term that is not blank: it has
a character that is no white space. -/
def nonBlank (q : String) : Prop := ∃ c ∈ q.data, unicode.IsSpace c = false

instance nonBlank.decidable (q : String) : Decidable (nonBlank q) :=
  inferInstanceAs (Decidable (∃ c ∈ q.data, unicode.IsSpace c = false))

/-- The view-model `handler.List` hands to its templates, from what the
service returned. -/
def listData (outside : Int) (query : Values) (posts recent : List Post) (total : Int) :
    ListPageData where
  Posts := posts
  Recent := recent
  Search := query.Get "q"
  Page := listPage query
  Limit := listLimit query
  Total := total
  TotalPages :=
    max (if listLimit query > 0 then
        float64.toInt64 outside
          (math.Ceil (float64.div (float64.ofInt total) (float64.ofInt (listLimit query))))
      else 1) 1
  Title := ""
  Content := ""
  Error := ""

/-- What `handler.List` renders for a view-model: the two fragments for a
request with the header `HX-Request: true`, the full page otherwise. -/
def listRender (header : Values) (data : ListPageData) : Events :=
  if Header.Get header "HX-Request" = "true" then
    [Event.Render "list" (TemplateData.listPage data),
      Event.Render "pagination" (TemplateData.listPage data)]
  else [Event.Render "base" (TemplateData.listPage data)]

/-- The storage adapter as the `repository` the service is built on, over the
collection as state; `now` is what the clock reads and `fresh` the object id
the driver generates during the calls. -/
def repo.New (now : Time) (fresh : ObjectID) : Repository Collection where
  Create := fun p coll => repo.Create coll now fresh p
  GetAll := fun page limit coll => (repo.GetAll coll page limit, coll)
  GetByID := fun id coll => (repo.GetByID coll id, coll)
  Update := fun p coll => repo.Update coll now p
  Delete := fun id coll => repo.Delete coll id
  Search := fun query page limit coll => (repo.Search coll query page limit, coll)
  GetRecent := fun limit coll => (repo.GetRecent coll limit, coll)

/-- Go `func New(repo repository) service` of the service package: the service
the handler is given. -/
def service.New {σ : Type} (r : Repository σ) : Service σ where
  Create := service.Create r
  GetAll := service.GetAll r
  GetByID := service.GetByID r
  Update := service.Update r
  Delete := service.Delete r
  Search := service.Search r
  GetRecent := service.GetRecent r

/-! ## Histories of the store

The three writing methods of `repo.go` as steps on the collection, and the
pages of a listing read one after the other. -/

/-- One call of a writing method of the adapter, with what the call takes from
outside: `now`, the value `time.Now()` returns if the call gets to read the
clock, and `fresh`, the object id the driver would generate. -/
inductive Write where
  /-- A call of `repo.Create`. -/
  | Create (now : Time) (fresh : ObjectID) (p : Post)
  /-- A call of `repo.Update`. -/
  | Update (now : Time) (p : Post)
  /-- A call of `repo.Delete`. -/
  | Delete (id : String)

/-- The collection a call leaves behind. -/
def Write.apply (coll : Collection) : Write → Collection
  | Write.Create now fresh p => (repo.Create coll now fresh p).2
  | Write.Update now p => (repo.Update coll now p).2
  | Write.Delete id => (repo.Delete coll id).2

/-- The reading of the clock a call takes: `repo.Create` always reads it,
`repo.Update` reads it once the id has parsed, `repo.Delete` never does. -/
def Write.clock : Write → Option Time
  | Write.Create now _ _ => some now
  | Write.Update now p =>
    match ObjectIDFromHex p.ID with
    | Except.error _ => none
    | Except.ok _ => some now
  | Write.Delete _ => none

/-- The clock never goes back: the readings taken by a sequence of calls are
non-decreasing. -/
def clockNonDecreasing (ops : List Write) : Prop :=
  (ops.filterMap Write.clock).Pairwise fun a b => a ≤ b

instance clockNonDecreasing.decidable (ops : List Write) : Decidable (clockNonDecreasing ops) :=
  inferInstanceAs (Decidable ((ops.filterMap Write.clock).Pairwise fun a b => a ≤ b))

/-- The readings of the clock taken by a sequence of calls are instants the
BSON datetime holds without wrapping. -/
def clockInRange (ops : List Write) : Prop := ∀ t ∈ ops.filterMap Write.clock, fitsDateTime t

instance clockInRange.decidable (ops : List Write) : Decidable (clockInRange ops) :=
  inferInstanceAs (Decidable (∀ t ∈ ops.filterMap Write.clock, fitsDateTime t))

/-- The posts of the pages 1, 2, ..., `k` of a listing, one page after the
other. -/
def pagesUpTo (getPage : Int → List Post) (k : Nat) : List Post :=
  (List.range k).flatMap fun i => getPage ((i : Int) + 1)

/-! ## Sample data -/

/-- An object id made of eleven zero bytes and the given last byte. -/
def sampleID (n : Fin 256) : ObjectID := ⟨[0, 0, 0, 0, 0, 0, 0, 0, 0, 0, 0, n], rfl⟩

/-- A post as a form submits it: title and content only. -/
def samplePost : Post := ⟨"", "Test Title", "Test Content", zeroTime, zeroTime⟩

/-- The five posts of `createMultiplePosts(ctx, repo, 5)` as stored, created ten
milliseconds apart. -/
def lettersDocs : List Doc := [
  ⟨sampleID 1, "Title A", "Content A", 1000, 1000⟩,
  ⟨sampleID 2, "Title B", "Content B", 1010, 1010⟩,
  ⟨sampleID 3, "Title C", "Content C", 1020, 1020⟩,
  ⟨sampleID 4, "Title D", "Content D", 1030, 1030⟩,
  ⟨sampleID 5, "Title E", "Content E", 1040, 1040⟩]

/-- The five posts of `TestSearch` as stored. -/
def searchDocs : List Doc := [
  ⟨sampleID 1, "Go Programming", "Learning Go programming language", 1000, 1000⟩,
  ⟨sampleID 2, "MongoDB Tutorial", "Working with MongoDB in Go", 1001, 1001⟩,
  ⟨sampleID 3, "RESTful API", "Building RESTful APIs with Go", 1002, 1002⟩,
  ⟨sampleID 4, "GraphQL API", "Building GraphQL APIs with Go", 1003, 1003⟩,
  ⟨sampleID 5, "Testing in Go", "Writing tests for Go applications", 1004, 1004⟩]

/-- A stored post whose title has no dot in it. -/
def releaseDoc : Doc := ⟨sampleID 1, "Version 1022", "Release notes", 1000, 1000⟩

/-- The post of `TestUpdate` that replaces title and content of the record
with the id `sampleID 1`. -/
def updatedPost : Post :=
  ⟨"000000000000000000000001", "Updated Title", "Updated Content", zeroTime, zeroTime⟩

/-- A post addressed by an id no sample record has. -/
def absentPost : Post :=
  ⟨"000000000000000000000009", "Non-existent Post", "This post does not exist",
    zeroTime, zeroTime⟩

/-- A post whose id is written with upper-case hex digits. -/
def upperPost : Post :=
  ⟨"ABCDEF0123456789ABCDEF01", "Hello", "World", 1700000000123456789, 1700000000123456789⟩

/-- The request `GET /posts?q=foo&page=2&limit=5` of `TestListSuccessWithQuery`. -/
def searchRequest : Request := ⟨[("q", "foo"), ("page", "2"), ("limit", "5")], [], ""⟩

/-- The request `GET /posts` of `TestListSuccessNoQuery`. -/
def plainRequest : Request := ⟨[], [], ""⟩

/-- The request `GET /posts/{id}` for the given id. -/
def showRequest (id : String) : Request := ⟨[], [], id⟩

/-- The handler's service over the storage adapter, with a clock that reads
1 010 000 000 ns. -/
def storedService : Service Collection := service.New (repo.New 1010000000 (sampleID 9))

/-- A form with a title and a content sent to `POST /posts`. -/
def createRequest (title content : String) : FormRequest :=
  ⟨⟨[], [], ""⟩, some [("title", title), ("content", content)]⟩

/-- A form with a title and a content sent to `PATCH /posts/{id}`. -/
def updateRequest (id title content : String) : FormRequest :=
  ⟨⟨[], [], id⟩, some [("title", title), ("content", content)]⟩

/-- A stored post whose title has a backslash in it. -/
def pathDoc : Doc := ⟨sampleID 1, "Notes on C:\\temp", "Cleaning up", 1000, 1000⟩

/-- A post stamped by its caller with `time.Unix(1<<62, 0)`. -/
def farFuturePost : Post :=
  ⟨"000000000000000000000001", "Hello", "World",
    4611686018427387904000000000, 4611686018427387904000000000⟩

/-- C1: `Post.Validate` returns `ErrEmptyTitle` iff the title is empty
(whatever the content), `ErrEmptyContent` iff the title is non-empty and the
content is empty, and `nil` iff both are non-empty. -/
theorem validate_result_iff (p : Post) :
    (p.Validate = some Error.ErrEmptyTitle ↔ p.Title = "") ∧
    (p.Validate = some Error.ErrEmptyContent ↔ p.Title ≠ "" ∧ p.Content = "") ∧
    (p.Validate = none ↔ p.Title ≠ "" ∧ p.Content ≠ "") := by
  unfold Post.Validate
  by_cases ht : p.Title = "" <;> by_cases hc : p.Content = "" <;> simp [ht, hc]

/-- C2: `service.GetAll` and `service.Search` call the repository with page 1
in place of a page `<= 0` and limit 10 in place of a limit `<= 0`, each
normalised on its own and the query passed on unchanged; `service.GetRecent`
calls it with limit 5 in place of a limit `<= 0`.  Stated for every repository,
and for the call-recording one as the single call it logs. -/
theorem service_normalises_paging {σ : Type} (r : Repository σ) (s : σ) (log : List Call)
    (query : String) (page limit : Int) :
    service.GetAll r page limit s
      = r.GetAll (if page ≤ 0 then 1 else page) (if limit ≤ 0 then 10 else limit) s ∧
    service.Search r query page limit s
      = r.Search query (if page ≤ 0 then 1 else page) (if limit ≤ 0 then 10 else limit) s ∧
    service.GetRecent r limit s = r.GetRecent (if limit ≤ 0 then 5 else limit) s ∧
    (service.GetAll mockRepo page limit log).2
      = log ++ [Call.GetAll (if page ≤ 0 then 1 else page) (if limit ≤ 0 then 10 else limit)] ∧
    (service.Search mockRepo query page limit log).2
      = log ++ [Call.Search query (if page ≤ 0 then 1 else page)
          (if limit ≤ 0 then 10 else limit)] ∧
    (service.GetRecent mockRepo limit log).2
      = log ++ [Call.GetRecent (if limit ≤ 0 then 5 else limit)] :=
  ⟨rfl, rfl, rfl, rfl, rfl, rfl⟩

/-- C3: for a post with an empty title or an empty content, `service.Create`
returns the empty id with the error of `Validate`, `service.Update` returns
that error, and the repository is not called: whatever the repository, its
state is the one it had, and the call-recording repository logs nothing. -/
theorem service_rejects_invalid_before_storage {σ : Type} (r : Repository σ) (s : σ)
    (log : List Call) (p : Post) (h : p.Title = "" ∨ p.Content = "") :
    ∃ err, p.Validate = some err ∧
      (err = Error.ErrEmptyTitle ∨ err = Error.ErrEmptyContent) ∧
      service.Create r p s = ((p, "", some err), s) ∧
      service.Update r p s = ((p, some err), s) ∧
      (service.Create mockRepo p log).2 = log ∧
      (service.Update mockRepo p log).2 = log := by
  by_cases ht : p.Title = ""
  · refine ⟨Error.ErrEmptyTitle, ?_, Or.inl rfl, ?_, ?_, ?_, ?_⟩ <;>
      simp [service.Create, service.Update, Post.Validate, ht]
  · have hc : p.Content = "" := h.resolve_left ht
    refine ⟨Error.ErrEmptyContent, ?_, Or.inr rfl, ?_, ?_, ?_, ?_⟩ <;>
      simp [service.Create, service.Update, Post.Validate, ht, hc]

/-- Witness for C3: the post without title and content of
`TestCreateValidationError`. -/
theorem service_rejects_invalid_before_storage_witness :
    (({ samplePost with Title := "", Content := "" } : Post).Title = "" ∨
      ({ samplePost with Title := "", Content := "" } : Post).Content = "") ∧
    ∃ err, ({ samplePost with Title := "", Content := "" } : Post).Validate = some err ∧
      (err = Error.ErrEmptyTitle ∨ err = Error.ErrEmptyContent) ∧
      service.Create mockRepo { samplePost with Title := "", Content := "" } []
        = (({ samplePost with Title := "", Content := "" }, "", some err), []) ∧
      service.Update mockRepo { samplePost with Title := "", Content := "" } []
        = (({ samplePost with Title := "", Content := "" }, some err), []) ∧
      (service.Create mockRepo { samplePost with Title := "", Content := "" } []).2 = [] ∧
      (service.Update mockRepo { samplePost with Title := "", Content := "" } []).2 = [] :=
  ⟨Or.inl rfl,
    service_rejects_invalid_before_storage mockRepo [] []
      { samplePost with Title := "", Content := "" } (Or.inl rfl)⟩

/-- C4: past the validation gate every service operation returns exactly what
the repository call returned, values and error alike, and leaves the
repository in the state that call left: any input for `GetByID`, `Delete`,
`GetAll`, `Search`, `GetRecent`; a post with non-empty title and content for
`Create` and `Update`. -/
theorem service_passes_repository_result {σ : Type} (r : Repository σ) (s : σ)
    (id query : String) (page limit : Int) (p : Post)
    (hp : p.Title ≠ "" ∧ p.Content ≠ "") :
    service.GetByID r id s = r.GetByID id s ∧
    service.Delete r id s = r.Delete id s ∧
    service.GetAll r page limit s
      = r.GetAll (if page ≤ 0 then 1 else page) (if limit ≤ 0 then 10 else limit) s ∧
    service.Search r query page limit s
      = r.Search query (if page ≤ 0 then 1 else page) (if limit ≤ 0 then 10 else limit) s ∧
    service.GetRecent r limit s = r.GetRecent (if limit ≤ 0 then 5 else limit) s ∧
    service.Create r p s = r.Create p s ∧
    service.Update r p s = r.Update p s := by
  refine ⟨rfl, rfl, rfl, rfl, rfl, ?_, ?_⟩ <;>
    simp [service.Create, service.Update, Post.Validate, hp.1, hp.2]

/-- Witness for C4: the valid post of `TestCreateSuccess` against the
call-recording repository. -/
theorem service_passes_repository_result_witness :
    (samplePost.Title ≠ "" ∧ samplePost.Content ≠ "") ∧
    service.Create mockRepo samplePost [] = ((samplePost, "123", none), [Call.Create samplePost]) ∧
    service.Update mockRepo samplePost [] = ((samplePost, none), [Call.Update samplePost]) :=
  ⟨by decide,
    (service_passes_repository_result mockRepo [] "id1" "query" 0 0 samplePost (by decide)).2.2.2.2.2⟩

/-! ## Lemmas: what the adapter's reads and writes amount to -/

theorem wrap64_eq_self (x : Int) (h1 : -2 ^ 63 ≤ x) (h2 : x < 2 ^ 63) : wrap64 x = x := by
  unfold wrap64
  norm_num at h1 h2 ⊢
  omega

theorem toDateTime_of_fits (t : Int) (h : fitsDateTime t) : toDateTime t = t / 1000000 := by
  have h1 : -2 ^ 63 ≤ t / 1000000 := h.1
  have h2 : t / 1000000 < 2 ^ 63 := h.2
  have hsum : t / 1000000000 * 1000 + t % 1000000000 / 1000000 = t / 1000000 := by omega
  have e1 : wrap64 (t / 1000000000) = t / 1000000000 := by
    apply wrap64_eq_self
    · norm_num at h1 ⊢
      omega
    · norm_num at h2 ⊢
      omega
  unfold toDateTime
  rw [e1, hsum]
  exact wrap64_eq_self _ h1 h2

theorem skip_nonneg (page limit : Int) : 0 ≤ repo.skip page limit := le_max_right _ _

theorem skip_eq_product (page limit : Int) (hp : 1 ≤ page) (hl : 1 ≤ limit)
    (hfit : (page - 1) * limit ≤ maxInt64) :
    repo.skip page limit = (page - 1) * limit := by
  have h0 : 0 ≤ page - 1 := by omega
  have hprod : 0 ≤ (page - 1) * limit := mul_nonneg h0 (by omega)
  have hle : page - 1 ≤ (page - 1) * limit := by nlinarith
  unfold maxInt64 at hfit
  have e1 : wrap64 (page - 1) = page - 1 := wrap64_eq_self _ (by norm_num; omega) (by norm_num at hfit ⊢; omega)
  have e2 : wrap64 ((page - 1) * limit) = (page - 1) * limit :=
    wrap64_eq_self _ (by norm_num; omega) (by norm_num at hfit ⊢; omega)
  unfold repo.skip
  rw [e1, e2]
  exact max_eq_left hprod

theorem unmarshal_toBson (d : Doc) : Post.UnmarshalBSON d.toBson = Except.ok d.toPost := by
  rfl

theorem cursorAll_eq (l : List Doc) : cursorAll l = (l.map Doc.toPost, none) := by
  induction l with
  | nil => rfl
  | cons d rest ih => simp [cursorAll, unmarshal_toBson, ih]

/-- The page of a sorted, filtered list that a find with the adapter's options delivers. -/
theorem find_sorted_eq (coll : Collection) (filter : Filter) (m : Doc → Bool)
    (hm : filter.compile coll.regex = Except.ok m) (skip limit : Int) (hs : 0 ≤ skip) :
    coll.Find filter ((options.Find.SetSkip skip).SetLimit limit).SetSortCreatedAtDesc
      = Except.ok (applyLimit limit ((sortCreatedAtDesc (coll.docs.filter m)).drop skip.toNat)) := by
  simp [Collection.Find, hm, options.Find, FindOptions.SetSkip, FindOptions.SetLimit,
    FindOptions.SetSortCreatedAtDesc, not_lt.mpr hs]

theorem count_eq (coll : Collection) (filter : Filter) (m : Doc → Bool)
    (hm : filter.compile coll.regex = Except.ok m) :
    coll.CountDocuments filter = Except.ok ((coll.docs.filter m).length : Int) := by
  unfold Collection.CountDocuments
  rw [hm]

theorem GetAll_eq (coll : Collection) (page limit : Int) :
    repo.GetAll coll page limit
      = ((applyLimit limit ((sortCreatedAtDesc coll.docs).drop (repo.skip page limit).toNat)).map
          Doc.toPost, (coll.docs.length : Int), none) := by
  have hf := find_sorted_eq coll Filter.all (fun _ => true) rfl (repo.skip page limit) limit
    (skip_nonneg page limit)
  have hc := count_eq coll Filter.all (fun _ => true) rfl
  simp only [List.filter_true] at hf hc
  unfold repo.GetAll
  simp only [hf, hc, cursorAll_eq]

theorem searchFilter_compile_ok (re : RegexEngine) (query : String) (m : String → Bool)
    (h : re query "i" = Except.ok m) :
    (repo.searchFilter query).compile re = Except.ok fun d => m d.title || m d.content := by
  simp [repo.searchFilter, Filter.compile, h, Field.get]

theorem searchFilter_compile_error (re : RegexEngine) (query : String) (err : Error)
    (h : re query "i" = Except.error err) :
    (repo.searchFilter query).compile re = Except.error err := by
  simp [repo.searchFilter, Filter.compile, h]

theorem Search_eq (coll : Collection) (query : String) (m : String → Bool)
    (h : coll.regex query "i" = Except.ok m) (page limit : Int) :
    repo.Search coll query page limit
      = ((applyLimit limit ((sortCreatedAtDesc
            (coll.docs.filter fun d => m d.title || m d.content)).drop
            (repo.skip page limit).toNat)).map Doc.toPost,
          ((coll.docs.filter fun d => m d.title || m d.content).length : Int), none) := by
  have hc := searchFilter_compile_ok coll.regex query m h
  have hf := find_sorted_eq coll (repo.searchFilter query) _ hc (repo.skip page limit) limit
    (skip_nonneg page limit)
  have hn := count_eq coll (repo.searchFilter query) _ hc
  unfold repo.Search
  simp only [hf, hn, cursorAll_eq]

theorem Search_error (coll : Collection) (query : String) (err : Error)
    (h : coll.regex query "i" = Except.error err) (page limit : Int) :
    repo.Search coll query page limit = ([], 0, some err) := by
  have hc := searchFilter_compile_error coll.regex query err h
  unfold repo.Search Collection.CountDocuments
  simp only [hc]

theorem sortCreatedAtDesc_length (l : List Doc) : (sortCreatedAtDesc l).length = l.length :=
  List.length_insertionSort _ l

theorem page_empty_of_length_le (l : List Doc) (skip limit : Int) (h : (l.length : Int) ≤ skip) :
    applyLimit limit ((sortCreatedAtDesc l).drop skip.toNat) = [] := by
  have hd : (sortCreatedAtDesc l).drop skip.toNat = [] := by
    apply List.drop_eq_nil_of_le
    rw [sortCreatedAtDesc_length]
    omega
  rw [hd]
  unfold applyLimit
  split <;> simp

theorem char_le_iff (a b : Char) : a ≤ b ↔ a.toNat ≤ b.toNat := by
  show a.val ≤ b.val ↔ _
  rfl

theorem char_of_small (P : Char → Prop) (hsmall : ∀ n : Fin 128, P (Char.ofNat n.val)) (c : Char)
    (h : c.toNat < 128) : P c := by
  have := hsmall ⟨c.toNat, h⟩
  simpa [Char.ofNat_toNat] using this

theorem sortCreatedAtDesc_perm (l : List Doc) : (sortCreatedAtDesc l).Perm l :=
  List.perm_insertionSort _ l

theorem sortCreatedAtDesc_sorted (l : List Doc) : (sortCreatedAtDesc l).Pairwise Doc.newerEq :=
  @List.sorted_insertionSort Doc Doc.newerEq _
    ⟨fun a b => le_total b.created_at a.created_at⟩
    ⟨fun _ _ _ hab hbc => le_trans hbc hab⟩ l

theorem sortCreatedAtDesc_strict (l : List Doc)
    (hd : l.Pairwise fun a b => a.created_at ≠ b.created_at) :
    (sortCreatedAtDesc l).Pairwise fun a b => b.created_at < a.created_at := by
  have hd1 : (sortCreatedAtDesc l).Pairwise fun a b => a.created_at ≠ b.created_at :=
    ((sortCreatedAtDesc_perm l).pairwise_iff (fun {_ _} h => Ne.symm h)).mpr hd
  exact ((sortCreatedAtDesc_sorted l).and hd1).imp
    (fun {a b} h => lt_of_le_of_ne h.1 (Ne.symm h.2))

theorem GetRecent_eq (coll : Collection) (limit : Int) :
    repo.GetRecent coll limit
      = ((applyLimit limit (sortCreatedAtDesc coll.docs)).map Doc.toPost, none) := by
  have hf : coll.Find Filter.all (options.Find.SetLimit limit).SetSortCreatedAtDesc
      = Except.ok (applyLimit limit (sortCreatedAtDesc coll.docs)) := by
    simp [Collection.Find, Filter.compile, options.Find, FindOptions.SetLimit,
      FindOptions.SetSortCreatedAtDesc]
  unfold repo.GetRecent
  simp only [hf, cursorAll_eq]

theorem updateFirst_of_none (m : Doc → Bool) (f : Doc → Doc) (l : List Doc)
    (h : ∀ d ∈ l, m d = false) : updateFirst m f l = l := by
  induction l with
  | nil => rfl
  | cons d rest ih =>
    have hd : m d = false := h d (List.mem_cons_self _ _)
    simp [updateFirst, hd, ih (fun x hx => h x (List.mem_cons_of_mem _ hx))]

theorem updateFirst_eq_map (objID : ObjectID) (f : Doc → Doc) (l : List Doc)
    (hn : (l.map Doc.id).Nodup) :
    updateFirst (fun d => decide (d.id = objID)) f l
      = l.map fun x => if x.id = objID then f x else x := by
  induction l with
  | nil => rfl
  | cons d rest ih =>
    rw [List.map_cons, List.nodup_cons] at hn
    by_cases hd : d.id = objID
    · have hrest : ∀ x ∈ rest, x.id ≠ objID := fun x hx hxe =>
        hn.1 (by rw [hd, ← hxe]; exact List.mem_map_of_mem _ hx)
      have hmap : (rest.map fun x => if x.id = objID then f x else x) = rest := by
        conv_rhs => rw [← List.map_id rest]
        exact List.map_congr_left (fun x hx => by simp [hrest x hx])
      simp [updateFirst, hd, hmap]
    · simp [updateFirst, hd, ih hn.2]

theorem Update_eq (coll : Collection) (now : Time) (p : Post) (objID : ObjectID)
    (hid : ObjectIDFromHex p.ID = Except.ok objID) :
    repo.Update coll now p
      = (({ p with UpdatedAt := now },
          if coll.docs.any (fun d => decide (d.id = objID)) then none
          else some Error.ErrPostNotFound),
        ⟨coll.regex, updateFirst (fun d => decide (d.id = objID))
          (fun d => { d with title := p.Title, content := p.Content,
                             updated_at := toDateTime now }) coll.docs⟩) := by
  unfold repo.Update
  rw [hid]
  by_cases h : coll.docs.any (fun d => decide (d.id = objID)) = true
  · simp [Collection.UpdateOne, Filter.compile, h, Doc.set]
  · simp [Collection.UpdateOne, Filter.compile, h, Doc.set]

theorem any_idEq_false (l : List Doc) (objID : ObjectID) (h : ∀ d ∈ l, d.id ≠ objID) :
    l.any (fun d => decide (d.id = objID)) = false := by
  simp only [List.any_eq_false, decide_eq_true_eq]
  exact h

theorem any_idEq_true (l : List Doc) (d : Doc) (h : d ∈ l) :
    l.any (fun x => decide (x.id = d.id)) = true := by
  simp only [List.any_eq_true, decide_eq_true_eq]
  exact ⟨d, h, rfl⟩

theorem Delete_eq (coll : Collection) (id : String) (objID : ObjectID)
    (hid : ObjectIDFromHex id = Except.ok objID) :
    repo.Delete coll id
      = (if coll.docs.any (fun d => decide (d.id = objID)) then none
          else some Error.ErrPostNotFound,
        ⟨coll.regex, coll.docs.eraseP fun d => decide (d.id = objID)⟩) := by
  unfold repo.Delete
  rw [hid]
  by_cases h : coll.docs.any (fun d => decide (d.id = objID)) = true
  · simp [Collection.DeleteOne, Filter.compile, h]
  · simp [Collection.DeleteOne, Filter.compile, h]

theorem GetByID_eq (coll : Collection) (id : String) (objID : ObjectID)
    (hid : ObjectIDFromHex id = Except.ok objID) :
    repo.GetByID coll id
      = match coll.docs.find? (fun d => decide (d.id = objID)) with
        | none => (none, some Error.ErrPostNotFound)
        | some d => (some d.toPost, none) := by
  unfold repo.GetByID
  rw [hid]
  cases h : coll.docs.find? (fun d => decide (d.id = objID)) with
  | none => simp [Collection.FindOneDecode, Filter.compile, h]
  | some d => simp [Collection.FindOneDecode, Filter.compile, h, unmarshal_toBson]

/-! ## Theorems: paging -/

/-- C5 (as amended): for `page >= 1` and `limit >= 1` whose product
`(page-1)*limit` fits an `int64`, the skip of `repo.GetAll` and `repo.Search`
is `max((page-1)*limit, 0)`, which is the integer product `(page-1)*limit`;
the page `repo.GetAll` returns starts that many documents into the sorted
collection, and so does the page of `repo.Search` among the matching ones. -/
theorem skip_is_product_when_it_fits (coll : Collection) (page limit : Int)
    (hp : 1 ≤ page) (hl : 1 ≤ limit) (hfit : (page - 1) * limit ≤ maxInt64) :
    repo.skip page limit = max ((page - 1) * limit) 0 ∧
    repo.skip page limit = (page - 1) * limit ∧
    (repo.GetAll coll page limit).1
      = (applyLimit limit ((sortCreatedAtDesc coll.docs).drop
          ((page - 1) * limit).toNat)).map Doc.toPost ∧
    ∀ (query : String) (m : String → Bool), coll.regex query "i" = Except.ok m →
      (repo.Search coll query page limit).1
        = (applyLimit limit ((sortCreatedAtDesc
            (coll.docs.filter fun d => m d.title || m d.content)).drop
            ((page - 1) * limit).toNat)).map Doc.toPost := by
  have hs := skip_eq_product page limit hp hl hfit
  have hnn : 0 ≤ (page - 1) * limit := mul_nonneg (by omega) (by omega)
  refine ⟨by rw [hs, max_eq_left hnn], hs, ?_, ?_⟩
  · rw [GetAll_eq, hs]
  · intro query m hm
    rw [Search_eq coll query m hm, hs]

/-- Witness for C5: page 2 with limit 2 skips 2, as in `TestGetAll`. -/
theorem skip_is_product_when_it_fits_witness :
    ((1 : Int) ≤ 2 ∧ (1 : Int) ≤ 2 ∧ ((2 : Int) - 1) * 2 ≤ maxInt64) ∧
    repo.skip 2 2 = 2 ∧
    (repo.GetAll (plainCollection lettersDocs) 2 2).1
      = ((lettersDocs.reverse.drop 2).take 2).map Doc.toPost :=
  ⟨by decide,
    (skip_is_product_when_it_fits (plainCollection lettersDocs) 2 2
      (by decide) (by decide) (by decide)).2.1,
    (skip_is_product_when_it_fits (plainCollection lettersDocs) 2 2
      (by decide) (by decide) (by decide)).2.2.1⟩

/-- C5 as stated fails where the product leaves the `int64` range: page
`2^62+1` with limit 2 has the integer product `2^63`, the `int64` product is
`-2^63`, and the skip is 0. -/
theorem skip_product_wraps_counterexample :
    ((1 : Int) ≤ 2 ^ 62 + 1 ∧ (2 ^ 62 + 1 : Int) ≤ maxInt64 ∧
      (1 : Int) ≤ 2 ∧ (2 : Int) ≤ maxInt64) ∧
    ((2 ^ 62 + 1 : Int) - 1) * 2 = 2 ^ 63 ∧
    max (((2 ^ 62 + 1 : Int) - 1) * 2) 0 = 2 ^ 63 ∧
    repo.skip (2 ^ 62 + 1) 2 = 0 ∧
    repo.skip (2 ^ 62 + 1) 2 ≠ max (((2 ^ 62 + 1 : Int) - 1) * 2) 0 := by
  decide

/-- C6 (as amended): for `page >= 1` and `limit >= 1` whose product
`(page-1)*limit` fits an `int64` and is at least the number of matching posts
(all posts for `repo.GetAll`; for `repo.Search` with a query that compiles, the
posts it matches), the operation returns the empty sequence, no error, and the
number of matching posts as total, the same total as for page 1. -/
theorem page_beyond_end_is_empty (coll : Collection) (page limit : Int)
    (hp : 1 ≤ page) (hl : 1 ≤ limit) (hfit : (page - 1) * limit ≤ maxInt64) :
    ((coll.docs.length : Int) ≤ (page - 1) * limit →
      repo.GetAll coll page limit = ([], (coll.docs.length : Int), none) ∧
      (repo.GetAll coll 1 limit).2 = ((coll.docs.length : Int), none)) ∧
    ∀ (query : String) (m : String → Bool), coll.regex query "i" = Except.ok m →
      ((coll.docs.filter fun d => m d.title || m d.content).length : Int) ≤ (page - 1) * limit →
      repo.Search coll query page limit
        = ([], ((coll.docs.filter fun d => m d.title || m d.content).length : Int), none) ∧
      (repo.Search coll query 1 limit).2
        = (((coll.docs.filter fun d => m d.title || m d.content).length : Int), none) := by
  have hs := skip_eq_product page limit hp hl hfit
  constructor
  · intro hn
    rw [GetAll_eq, GetAll_eq, page_empty_of_length_le coll.docs _ limit (by rw [hs]; exact hn)]
    exact ⟨rfl, rfl⟩
  · intro query m hm hn
    rw [Search_eq coll query m hm, Search_eq coll query m hm,
      page_empty_of_length_le _ _ limit (by rw [hs]; exact hn)]
    exact ⟨rfl, rfl⟩

/-- Witness for C6: page 10 with limit 2 over the five posts of `TestGetAll`,
and over the two posts of `TestSearch` that match "API". -/
theorem page_beyond_end_is_empty_witness :
    ((1 : Int) ≤ 10 ∧ (1 : Int) ≤ 2 ∧ ((10 : Int) - 1) * 2 ≤ maxInt64) ∧
    repo.GetAll (plainCollection lettersDocs) 10 2 = ([], 5, none) ∧
    repo.Search (plainCollection searchDocs) "API" 10 2 = ([], 2, none) :=
  ⟨by decide,
    ((page_beyond_end_is_empty (plainCollection lettersDocs) 10 2
      (by decide) (by decide) (by decide)).1 (by decide)).1,
    ((page_beyond_end_is_empty (plainCollection searchDocs) 10 2
      (by decide) (by decide) (by decide)).2 "API"
      (fun subject => matchAnywhere (caseFold id) ("API".data.map Atom.lit) subject.data)
      rfl (by decide)).1⟩

/-- C6 as stated fails in two places.  Where `(page-1)*limit` leaves the
`int64` range the skip is 0: page `2^62+1` with limit 2 is far beyond the one
stored post and still returns it.  And a query that does not compile, here a
lone backslash, makes `repo.Search` return the server's error, though no
stored post contains a backslash and page 2 is beyond the end. -/
theorem page_beyond_end_counterexample :
    ((1 : Int) ≤ 2 ^ 62 + 1 ∧ (2 ^ 62 + 1 : Int) ≤ maxInt64 ∧
      (1 : Int) ≤ 2 ∧ (2 : Int) ≤ maxInt64) ∧
    (((plainCollection [releaseDoc]).docs.length : Int) ≤ ((2 ^ 62 + 1 : Int) - 1) * 2) ∧
    repo.GetAll (plainCollection [releaseDoc]) (2 ^ 62 + 1) 2 = ([releaseDoc.toPost], 1, none) ∧
    (∀ d ∈ searchDocs, ¬ containsCI Char.toLower d.title "\\" ∧
      ¬ containsCI Char.toLower d.content "\\") ∧
    repo.Search (plainCollection searchDocs) "\\" 2 10
      = ([], 0, some (Error.driver "Regular expression is invalid")) := by
  decide

/-! ## Theorems: search -/

/-- C8: for a collection with pairwise distinct `created_at` and a limit
`>= 1`, `repo.GetRecent` returns, without error, exactly `min(limit, n)` posts:
they are stored posts, every stored post left out is older than each of them,
and they come in strictly descending `created_at` order. -/
theorem getRecent_newest_first (coll : Collection) (limit : Int) (hl : 1 ≤ limit)
    (hd : coll.docs.Pairwise fun a b => a.created_at ≠ b.created_at) :
    ∃ chosen others : List Doc,
      repo.GetRecent coll limit = (chosen.map Doc.toPost, none) ∧
      (chosen.length : Int) = min limit (coll.docs.length : Int) ∧
      (chosen ++ others).Perm coll.docs ∧
      (∀ c ∈ chosen, ∀ o ∈ others, o.created_at < c.created_at) ∧
      (chosen.Pairwise fun a b => b.created_at < a.created_at) ∧
      ((repo.GetRecent coll limit).1.Pairwise fun a b => b.CreatedAt < a.CreatedAt) := by
  have hstrict := sortCreatedAtDesc_strict coll.docs hd
  have hlim : applyLimit limit (sortCreatedAtDesc coll.docs)
      = (sortCreatedAtDesc coll.docs).take limit.natAbs := by
    unfold applyLimit
    rw [if_neg (by omega)]
  have hsplit := List.take_append_drop limit.natAbs (sortCreatedAtDesc coll.docs)
  rw [← hsplit] at hstrict
  have hpw := List.pairwise_append.mp hstrict
  refine ⟨(sortCreatedAtDesc coll.docs).take limit.natAbs,
    (sortCreatedAtDesc coll.docs).drop limit.natAbs, ?_, ?_, ?_, hpw.2.2, hpw.1, ?_⟩
  · rw [GetRecent_eq, hlim]
  · rw [List.length_take, sortCreatedAtDesc_length]
    omega
  · rw [hsplit]
    exact sortCreatedAtDesc_perm coll.docs
  · rw [GetRecent_eq, hlim]
    rw [List.pairwise_map]
    exact hpw.1.imp (fun {a b} h => by
      show b.created_at * 1000000 < a.created_at * 1000000
      omega)

/-- Witness for C8: `GetRecent(3)` over the posts A..E of `TestGetRecent`. -/
theorem getRecent_newest_first_witness :
    (1 : Int) ≤ 3 ∧
    (lettersDocs.Pairwise fun a b => a.created_at ≠ b.created_at) ∧
    ∃ chosen others : List Doc,
      repo.GetRecent (plainCollection lettersDocs) 3 = (chosen.map Doc.toPost, none) ∧
      (chosen.length : Int) = min 3 ((plainCollection lettersDocs).docs.length : Int) ∧
      (chosen ++ others).Perm (plainCollection lettersDocs).docs ∧
      (∀ c ∈ chosen, ∀ o ∈ others, o.created_at < c.created_at) ∧
      (chosen.Pairwise fun a b => b.created_at < a.created_at) ∧
      ((repo.GetRecent (plainCollection lettersDocs) 3).1.Pairwise
        fun a b => b.CreatedAt < a.CreatedAt) :=
  ⟨by decide, by decide,
    getRecent_newest_first (plainCollection lettersDocs) 3 (by decide) (by decide)⟩

/-! ## Theorems: update, delete and lookup by id -/

/-- C9 (as amended): a `repo.Update` addressing a stored post succeeds; after
it the record has the new title and content, the same id and the same
`created_at` as before, and as `updated_at` the time of the update in whole
milliseconds; every other record is unchanged.  Object ids in the collection
are pairwise distinct, as the server keeps them. -/
theorem update_sets_title_content_updated_at (coll : Collection) (now : Time) (p : Post)
    (d : Doc) (hd : d ∈ coll.docs) (hid : ObjectIDFromHex p.ID = Except.ok d.id)
    (huniq : (coll.docs.map Doc.id).Nodup) :
    ∃ after : Collection,
      repo.Update coll now p = (({ p with UpdatedAt := now }, none), after) ∧
      after.regex = coll.regex ∧
      after.docs = coll.docs.map (fun x =>
        if x.id = d.id then
          { x with title := p.Title, content := p.Content, updated_at := toDateTime now }
        else x) ∧
      (⟨d.id, p.Title, p.Content, d.created_at, toDateTime now⟩ : Doc) ∈ after.docs ∧
      (∀ x ∈ after.docs, x.id = d.id →
        x = ⟨d.id, p.Title, p.Content, d.created_at, toDateTime now⟩) ∧
      after.docs.length = coll.docs.length := by
  refine ⟨⟨coll.regex, updateFirst (fun x => decide (x.id = d.id))
      (fun x => { x with title := p.Title, content := p.Content,
                         updated_at := toDateTime now }) coll.docs⟩,
    ?_, rfl, updateFirst_eq_map d.id _ coll.docs huniq, ?_, ?_, ?_⟩
  · rw [Update_eq coll now p d.id hid, any_idEq_true coll.docs d hd]
    rfl
  · show _ ∈ updateFirst _ _ coll.docs
    rw [updateFirst_eq_map d.id _ coll.docs huniq]
    exact List.mem_map.mpr ⟨d, hd, by simp⟩
  · intro x hx hxid
    have hx1 : x ∈ updateFirst _ _ coll.docs := hx
    rw [updateFirst_eq_map d.id _ coll.docs huniq] at hx1
    obtain ⟨y, hy, hyx⟩ := List.mem_map.mp hx1
    by_cases hyid : y.id = d.id
    · have hyd : y = d := by
        have := List.inj_on_of_nodup_map huniq hy hd hyid
        exact this
      rw [if_pos hyid] at hyx
      rw [← hyx, hyd]
    · rw [if_neg hyid] at hyx
      rw [hyx] at hyid
      exact absurd hxid hyid
  · show (updateFirst _ _ coll.docs).length = _
    rw [updateFirst_eq_map d.id _ coll.docs huniq, List.length_map]

/-- Witness for C9: the update of `TestUpdate`, ten milliseconds after the
first post of the collection was created. -/
theorem update_sets_title_content_updated_at_witness :
    (⟨sampleID 1, "Title A", "Content A", 1000, 1000⟩ : Doc) ∈ (plainCollection lettersDocs).docs ∧
    ObjectIDFromHex updatedPost.ID = Except.ok (sampleID 1) ∧
    ((plainCollection lettersDocs).docs.map Doc.id).Nodup ∧
    ∃ after : Collection,
      repo.Update (plainCollection lettersDocs) 1010000000 updatedPost
        = (({ updatedPost with UpdatedAt := 1010000000 }, none), after) ∧
      (⟨sampleID 1, "Updated Title", "Updated Content", 1000, 1010⟩ : Doc) ∈ after.docs ∧
      after.docs.length = 5 :=
  ⟨by decide, by decide, by decide,
    match update_sets_title_content_updated_at (plainCollection lettersDocs) 1010000000
      updatedPost ⟨sampleID 1, "Title A", "Content A", 1000, 1000⟩
      (by decide) (by decide) (by decide) with
    | ⟨after, h1, _, _, h4, _, h6⟩ => ⟨after, h1, h4, h6⟩⟩

/-- C9 as stated fails when the update falls into the millisecond of the
previous `updated_at`: a post created at 1 000 000 000 ns and updated
900 000 ns later keeps `updated_at` 1000 ms, which is not strictly later. -/
theorem update_same_millisecond_counterexample :
    (repo.Create (plainCollection []) 1000000000 (sampleID 1) samplePost).1.2.2 = none ∧
    (repo.Create (plainCollection []) 1000000000 (sampleID 1) samplePost).2.docs
      = [⟨sampleID 1, "Test Title", "Test Content", 1000, 1000⟩] ∧
    (repo.Update (repo.Create (plainCollection []) 1000000000 (sampleID 1) samplePost).2
      1000900000 updatedPost).1.2 = none ∧
    (repo.Update (repo.Create (plainCollection []) 1000000000 (sampleID 1) samplePost).2
      1000900000 updatedPost).2.docs
      = [⟨sampleID 1, "Updated Title", "Updated Content", 1000, 1000⟩] ∧
    ¬ ((1000 : Int) < 1000) := by
  decide

/-- C10: for a well-formed identifier that matches no record, `repo.GetByID`,
`repo.Update` and `repo.Delete` each return `ErrPostNotFound`, and the
collection after `Update` and `Delete` is the collection before. -/
theorem missing_id_is_not_found (coll : Collection) (now : Time) (p : Post) (objID : ObjectID)
    (hid : ObjectIDFromHex p.ID = Except.ok objID) (hno : ∀ d ∈ coll.docs, d.id ≠ objID) :
    repo.GetByID coll p.ID = (none, some Error.ErrPostNotFound) ∧
    repo.Update coll now p = (({ p with UpdatedAt := now }, some Error.ErrPostNotFound), coll) ∧
    repo.Delete coll p.ID = (some Error.ErrPostNotFound, coll) := by
  have hany := any_idEq_false coll.docs objID hno
  refine ⟨?_, ?_, ?_⟩
  · rw [GetByID_eq coll p.ID objID hid]
    have : coll.docs.find? (fun d => decide (d.id = objID)) = none := by
      rw [List.find?_eq_none]
      intro d hd
      simpa using hno d hd
    rw [this]
  · rw [Update_eq coll now p objID hid, hany,
      updateFirst_of_none _ _ _ (fun d hd => by simpa using hno d hd)]
    rfl
  · rw [Delete_eq coll p.ID objID hid, hany,
      List.eraseP_of_forall_not (fun d hd => by simpa using hno d hd)]
    rfl

/-- Witness for C10: an id that none of the five stored posts has. -/
theorem missing_id_is_not_found_witness :
    ObjectIDFromHex absentPost.ID = Except.ok (sampleID 9) ∧
    (∀ d ∈ (plainCollection lettersDocs).docs, d.id ≠ sampleID 9) ∧
    repo.GetByID (plainCollection lettersDocs) absentPost.ID
      = (none, some Error.ErrPostNotFound) ∧
    repo.Update (plainCollection lettersDocs) 1010000000 absentPost
      = (({ absentPost with UpdatedAt := 1010000000 }, some Error.ErrPostNotFound),
          plainCollection lettersDocs) ∧
    repo.Delete (plainCollection lettersDocs) absentPost.ID
      = (some Error.ErrPostNotFound, plainCollection lettersDocs) :=
  ⟨by decide, by decide,
    missing_id_is_not_found (plainCollection lettersDocs) 1010000000 absentPost (sampleID 9)
      (by decide) (by decide)⟩

/-! ## Lemmas: hex digits and object ids -/

set_option maxRecDepth 100000 in
theorem fromHexChar_small : ∀ n : Fin 128, ∀ a : Fin 16,
    fromHexChar (Char.ofNat n.val) = some a →
      hexDigit a.val = (Char.ofNat n.val).toLower ∧ (Char.ofNat n.val).utf8Size = 1 := by
  decide

theorem fromHexChar_lt (c : Char) (a : Fin 16) (h : fromHexChar c = some a) : c.toNat < 128 := by
  unfold fromHexChar at h
  simp only [char_le_iff] at h
  have e0 : '0'.toNat = 48 := rfl
  have e9 : '9'.toNat = 57 := rfl
  have ea : 'a'.toNat = 97 := rfl
  have ef : 'f'.toNat = 102 := rfl
  have eA : 'A'.toNat = 65 := rfl
  have eF : 'F'.toNat = 70 := rfl
  rw [e0, e9, ea, ef, eA, eF] at h
  split_ifs at h <;> omega

theorem fromHexChar_spec (c : Char) (a : Fin 16) (h : fromHexChar c = some a) :
    hexDigit a.val = c.toLower ∧ c.utf8Size = 1 := by
  have hlt := fromHexChar_lt c a h
  revert a
  exact char_of_small
    (fun c => ∀ a : Fin 16, fromHexChar c = some a → hexDigit a.val = c.toLower ∧ c.utf8Size = 1)
    fromHexChar_small c hlt

theorem fromHexChar_isSome_iff (c : Char) : (∃ a, fromHexChar c = some a) ↔ isHexDigit c := by
  unfold fromHexChar isHexDigit
  split_ifs with h1 h2 h3
  · simp [h1]
  · simp [h2]
  · simp [h3]
  · simp [h1, h2, h3]

/-- The two hex digits of a byte, as `ObjectID.Hex` writes them. -/
theorem hexDecode_spec : ∀ (cs : List Char) (bs : List (Fin 256)), hexDecode cs = some bs →
    cs.length = 2 * bs.length ∧ (∀ c ∈ cs, isHexDigit c) ∧
    cs.map Char.toLower = bs.flatMap (fun b => [hexDigit (b.val / 16), hexDigit (b.val % 16)]) ∧
    String.utf8ByteSize.go cs = cs.length
  | [], bs, h => by
    simp only [hexDecode, Option.some.injEq] at h
    subst h
    simp [String.utf8ByteSize.go]
  | [_], bs, h => by simp [hexDecode] at h
  | p :: q :: rest, bs, h => by
    rw [hexDecode] at h
    cases hp : fromHexChar p with
    | none => simp [hp] at h
    | some a =>
      cases hq : fromHexChar q with
      | none => simp [hp, hq] at h
      | some b =>
        cases hr : hexDecode rest with
        | none => simp [hp, hq, hr] at h
        | some bs1 =>
          simp only [hp, hq, hr, Option.some.injEq] at h
          subst h
          obtain ⟨ih1, ih2, ih3, ih4⟩ := hexDecode_spec rest bs1 hr
          obtain ⟨hpa, hpu⟩ := fromHexChar_spec p a hp
          obtain ⟨hqb, hqu⟩ := fromHexChar_spec q b hq
          have hval : (Fin.ofNat (a.val * 16 + b.val) : Fin 256).val = a.val * 16 + b.val := by
            show (a.val * 16 + b.val) % 256 = _
            omega
          refine ⟨?_, ?_, ?_, ?_⟩
          · simp only [List.length_cons, ih1]
            omega
          · intro c hc
            simp only [List.mem_cons] at hc
            rcases hc with rfl | rfl | hc
            · exact (fromHexChar_isSome_iff _).mp ⟨a, hp⟩
            · exact (fromHexChar_isSome_iff _).mp ⟨b, hq⟩
            · exact ih2 c hc
          · simp only [List.map_cons, List.flatMap_cons, hval, ih3, List.cons_append,
              List.nil_append]
            have e1 : (a.val * 16 + b.val) / 16 = a.val := by omega
            have e2 : (a.val * 16 + b.val) % 16 = b.val := by omega
            rw [e1, e2, hpa, hqb]
          · simp only [String.utf8ByteSize.go, ih4, hpu, hqu, List.length_cons]

theorem hexDecode_complete : ∀ (cs : List Char), (∀ c ∈ cs, isHexDigit c) → cs.length % 2 = 0 →
    ∃ bs, hexDecode cs = some bs
  | [], _, _ => ⟨[], rfl⟩
  | [_], _, h => by simp at h
  | p :: q :: rest, hall, hlen => by
    obtain ⟨a, ha⟩ := (fromHexChar_isSome_iff p).mpr (hall p (by simp))
    obtain ⟨b, hb⟩ := (fromHexChar_isSome_iff q).mpr (hall q (by simp))
    obtain ⟨bs, hbs⟩ := hexDecode_complete rest (fun c hc => hall c (by simp [hc]))
      (by simp only [List.length_cons] at hlen; omega)
    exact ⟨_, by rw [hexDecode, ha, hb, hbs]⟩

theorem utf8ByteSize_of_hex (cs : List Char) (h : ∀ c ∈ cs, isHexDigit c) :
    String.utf8ByteSize.go cs = cs.length := by
  induction cs with
  | nil => rfl
  | cons c rest ih =>
    obtain ⟨a, ha⟩ := (fromHexChar_isSome_iff c).mpr (h c (by simp))
    simp only [String.utf8ByteSize.go, ih (fun x hx => h x (by simp [hx])),
      (fromHexChar_spec c a ha).2, List.length_cons]

theorem ObjectIDFromHex_ok (s : String) (oid : ObjectID) (h : ObjectIDFromHex s = Except.ok oid) :
    s.utf8ByteSize = 24 ∧ hexDecode s.data = some oid.val := by
  unfold ObjectIDFromHex at h
  split_ifs at h with h24
  have h24' : s.utf8ByteSize = 24 := by simpa using h24
  cases hd : hexDecode s.data with
  | none => simp [hd] at h
  | some bytes =>
    simp only [hd] at h
    split_ifs at h with hlen
    simp only [Except.ok.injEq] at h
    subst h
    exact ⟨h24', rfl⟩

theorem ObjectIDFromHex_ok_iff (s : String) :
    (∃ oid, ObjectIDFromHex s = Except.ok oid) ↔ wellFormedID s := by
  constructor
  · rintro ⟨oid, h⟩
    obtain ⟨h24, hd⟩ := ObjectIDFromHex_ok s oid h
    obtain ⟨hl, hall, -, -⟩ := hexDecode_spec s.data oid.val hd
    refine ⟨?_, hall⟩
    show s.data.length = 24
    rw [hl, oid.property]
  · rintro ⟨hlen, hall⟩
    have hlen' : s.data.length = 24 := hlen
    obtain ⟨bs, hbs⟩ := hexDecode_complete s.data hall (by rw [hlen'])
    have hb := (hexDecode_spec s.data bs hbs).1
    have h12 : bs.length = 12 := by omega
    have h24 : s.utf8ByteSize = 24 := by
      show String.utf8ByteSize.go s.data = 24
      rw [utf8ByteSize_of_hex s.data hall, hlen']
    refine ⟨⟨bs, h12⟩, ?_⟩
    unfold ObjectIDFromHex
    simp [h24, hbs, h12]

theorem Hex_of_ObjectIDFromHex (s : String) (oid : ObjectID)
    (h : ObjectIDFromHex s = Except.ok oid) : oid.Hex = String.mk (s.data.map Char.toLower) := by
  obtain ⟨-, hd⟩ := ObjectIDFromHex_ok s oid h
  unfold ObjectID.Hex
  rw [(hexDecode_spec s.data oid.val hd).2.2.1]

theorem ObjectIDFromHex_error (s : String) (err : Error)
    (h : ObjectIDFromHex s = Except.error err) :
    err = Error.ErrInvalidHex ∨ err = Error.hexDecode := by
  unfold ObjectIDFromHex at h
  split_ifs at h with h24
  · simp only [Except.error.injEq] at h
    exact Or.inl h.symm
  · cases hd : hexDecode s.data with
    | none =>
      simp only [hd, Except.error.injEq] at h
      exact Or.inr h.symm
    | some bytes =>
      simp only [hd] at h
      split_ifs at h with hlen
      simp only [Except.error.injEq] at h
      exact Or.inr h.symm

theorem ObjectIDFromHex_cases (s : String) :
    (∃ oid, ObjectIDFromHex s = Except.ok oid) ∨ ∃ err, ObjectIDFromHex s = Except.error err := by
  cases h : ObjectIDFromHex s with
  | ok oid => exact Or.inl ⟨oid, rfl⟩
  | error err => exact Or.inr ⟨err, rfl⟩

theorem eraseP_idEq_eq_filter (objID : ObjectID) (l : List Doc) (hn : (l.map Doc.id).Nodup) :
    l.eraseP (fun d => decide (d.id = objID)) = l.filter fun d => decide (d.id ≠ objID) := by
  induction l with
  | nil => rfl
  | cons d rest ih =>
    rw [List.map_cons, List.nodup_cons] at hn
    by_cases hd : d.id = objID
    · have hrest : ∀ x ∈ rest, x.id ≠ objID := fun x hx hxe =>
        hn.1 (by rw [hd, ← hxe]; exact List.mem_map_of_mem _ hx)
      have hf : (rest.filter fun d => !decide (d.id = objID)) = rest :=
        List.filter_eq_self.mpr (fun x hx => by simpa using hrest x hx)
      simp [List.eraseP_cons, hd, hf]
    · simp [List.eraseP_cons, hd, ih hn.2]

theorem ID_ne_empty_of_ok (s : String) (oid : ObjectID)
    (h : ObjectIDFromHex s = Except.ok oid) : s ≠ "" := by
  intro hs
  have he : ObjectIDFromHex "" = Except.error Error.ErrInvalidHex := by decide
  rw [hs, he] at h
  exact absurd h (by simp)

set_option maxRecDepth 100000 in
theorem hex_byte_roundtrip : ∀ b : Fin 256,
    (fromHexChar (hexDigit (b.val / 16))).bind (fun a =>
      (fromHexChar (hexDigit (b.val % 16))).map fun c =>
        (Fin.ofNat (a.val * 16 + c.val) : Fin 256)) = some b ∧
    (hexDigit (b.val / 16)).utf8Size = 1 ∧ (hexDigit (b.val % 16)).utf8Size = 1 := by
  decide

theorem hexDecode_encode (bs : List (Fin 256)) :
    hexDecode (bs.flatMap fun b => [hexDigit (b.val / 16), hexDigit (b.val % 16)]) = some bs ∧
    String.utf8ByteSize.go (bs.flatMap fun b => [hexDigit (b.val / 16), hexDigit (b.val % 16)])
      = 2 * bs.length := by
  induction bs with
  | nil => exact ⟨rfl, rfl⟩
  | cons b rest ih =>
    obtain ⟨h1, h2, h3⟩ := hex_byte_roundtrip b
    have hcons : ((b :: rest).flatMap fun b => [hexDigit (b.val / 16), hexDigit (b.val % 16)])
        = hexDigit (b.val / 16) :: hexDigit (b.val % 16)
            :: rest.flatMap fun b => [hexDigit (b.val / 16), hexDigit (b.val % 16)] := by
      rw [List.flatMap_cons]
      rfl
    rw [hcons]
    constructor
    · rw [hexDecode, ih.1]
      cases ha : fromHexChar (hexDigit (b.val / 16)) with
      | none => simp [ha] at h1
      | some a =>
        cases hc : fromHexChar (hexDigit (b.val % 16)) with
        | none => simp [ha, hc] at h1
        | some c =>
          simp only [ha, hc, Option.some_bind, Option.map_some', Option.some.injEq] at h1
          simp only [h1]
    · simp only [String.utf8ByteSize.go, ih.2, h2, h3, List.length_cons]
      omega

theorem ObjectIDFromHex_Hex (oid : ObjectID) : ObjectIDFromHex oid.Hex = Except.ok oid := by
  obtain ⟨hd, hs⟩ := hexDecode_encode oid.val
  have h24 : oid.Hex.utf8ByteSize = 24 := by
    show String.utf8ByteSize.go _ = 24
    rw [hs, oid.property]
  unfold ObjectIDFromHex
  have hd' : hexDecode oid.Hex.data = some oid.val := hd
  simp [h24, hd', oid.property]

theorem millisecond_truncation (t : Int) (h : fitsDateTime t) :
    0 ≤ t - ofDateTime (toDateTime t) ∧ t - ofDateTime (toDateTime t) < 1000000 := by
  rw [toDateTime_of_fits t h]
  unfold ofDateTime
  omega

/-! ## Theorems: deleting twice, malformed ids -/

/-- C11: for the id of a stored post, a first `repo.Delete` succeeds and
removes the record, all others staying; a following `repo.GetByID` returns
`ErrPostNotFound`; a second `repo.Delete` returns `ErrPostNotFound` and leaves
the collection as the first one left it.  Object ids in the collection are
pairwise distinct, as the server keeps them. -/
theorem delete_twice_not_found (coll : Collection) (id : String) (d : Doc)
    (hd : d ∈ coll.docs) (hid : ObjectIDFromHex id = Except.ok d.id)
    (huniq : (coll.docs.map Doc.id).Nodup) :
    ∃ after : Collection,
      repo.Delete coll id = (none, after) ∧
      after.regex = coll.regex ∧
      after.docs = (coll.docs.filter fun x => decide (x.id ≠ d.id)) ∧
      d ∉ after.docs ∧
      repo.GetByID after id = (none, some Error.ErrPostNotFound) ∧
      repo.Delete after id = (some Error.ErrPostNotFound, after) := by
  have hnone : ∀ x ∈ coll.docs.filter (fun x => decide (x.id ≠ d.id)), x.id ≠ d.id := by
    intro x hx
    simpa using (List.mem_filter.mp hx).2
  refine ⟨⟨coll.regex, coll.docs.filter fun x => decide (x.id ≠ d.id)⟩, ?_, rfl, rfl, ?_, ?_, ?_⟩
  · rw [Delete_eq coll id d.id hid, any_idEq_true coll.docs d hd,
      eraseP_idEq_eq_filter d.id coll.docs huniq]
    rfl
  · intro hmem
    exact hnone d hmem rfl
  · rw [GetByID_eq _ id d.id hid]
    have : (coll.docs.filter fun x => decide (x.id ≠ d.id)).find? (fun x => decide (x.id = d.id))
        = none := by
      rw [List.find?_eq_none]
      intro x hx
      simpa using hnone x hx
    simp only [this]
  · rw [Delete_eq _ id d.id hid, any_idEq_false _ d.id hnone,
      List.eraseP_of_forall_not (fun x hx => by simpa using hnone x hx)]
    rfl

/-- Witness for C11: deleting the second of the five stored posts twice. -/
theorem delete_twice_not_found_witness :
    (⟨sampleID 2, "Title B", "Content B", 1010, 1010⟩ : Doc) ∈ (plainCollection lettersDocs).docs ∧
    ObjectIDFromHex "000000000000000000000002" = Except.ok (sampleID 2) ∧
    ((plainCollection lettersDocs).docs.map Doc.id).Nodup ∧
    ∃ after : Collection,
      repo.Delete (plainCollection lettersDocs) "000000000000000000000002" = (none, after) ∧
      after.docs.length = 4 ∧
      repo.GetByID after "000000000000000000000002" = (none, some Error.ErrPostNotFound) ∧
      repo.Delete after "000000000000000000000002" = (some Error.ErrPostNotFound, after) :=
  ⟨by decide, by decide, by decide,
    match delete_twice_not_found (plainCollection lettersDocs) "000000000000000000000002"
      ⟨sampleID 2, "Title B", "Content B", 1010, 1010⟩ (by decide) (by decide) (by decide) with
    | ⟨after, h1, _, h3, _, h5, h6⟩ => ⟨after, h1, by rw [h3]; decide, h5, h6⟩⟩

/-- C12: for an id that is not a string of 24 hex digits, `repo.GetByID`,
`repo.Update` and `repo.Delete` fail with the error of the identifier parser
(`bson.ErrInvalidHex` or the hex decoding error), which is not
`ErrPostNotFound`; the answer is the same whatever the collection holds, and
the collection stays as it was. -/
theorem malformed_id_is_rejected (id : String) (hbad : ¬ wellFormedID id) :
    ∃ err, ObjectIDFromHex id = Except.error err ∧
      (err = Error.ErrInvalidHex ∨ err = Error.hexDecode) ∧
      err ≠ Error.ErrPostNotFound ∧
      ∀ (coll : Collection) (now : Time) (p : Post), p.ID = id →
        repo.GetByID coll id = (none, some err) ∧
        repo.Update coll now p = ((p, some err), coll) ∧
        repo.Delete coll id = (some err, coll) := by
  rcases ObjectIDFromHex_cases id with ⟨oid, hok⟩ | ⟨err, herr⟩
  · exact absurd ((ObjectIDFromHex_ok_iff id).mp ⟨oid, hok⟩) hbad
  · have hkind := ObjectIDFromHex_error id err herr
    refine ⟨err, herr, hkind, ?_, ?_⟩
    · rcases hkind with h | h <;> rw [h] <;> decide
    · intro coll now p hp
      subst hp
      refine ⟨?_, ?_, ?_⟩
      · unfold repo.GetByID
        rw [herr]
      · unfold repo.Update
        rw [herr]
      · unfold repo.Delete
        rw [herr]

/-- Witness for C12: the id `invalid-id` of `TestUpdate` and `TestDelete`. -/
theorem malformed_id_is_rejected_witness :
    ¬ wellFormedID "invalid-id" ∧
    ∃ err, ObjectIDFromHex "invalid-id" = Except.error err ∧
      (err = Error.ErrInvalidHex ∨ err = Error.hexDecode) ∧
      err ≠ Error.ErrPostNotFound ∧
      ∀ (coll : Collection) (now : Time) (p : Post), p.ID = "invalid-id" →
        repo.GetByID coll "invalid-id" = (none, some err) ∧
        repo.Update coll now p = ((p, some err), coll) ∧
        repo.Delete coll "invalid-id" = (some err, coll) :=
  ⟨by decide, malformed_id_is_rejected "invalid-id" (by decide)⟩

/-! ## Theorems: the BSON form of a post -/

/-- C13: the document `Post.MarshalBSON` produces has no `_id` field when the
post's ID is empty, its fields being exactly title, content, created_at and
updated_at; it has an `_id` field holding the parsed object id when the ID is
a well-formed identifier; and whenever a document is produced, an `_id` in it
is the object id parsed from a non-empty ID, never an empty or null value. -/
theorem marshal_id_field (p : Post) :
    (p.ID = "" →
      p.MarshalBSON = Except.ok [
        ("title", BsonValue.string p.Title),
        ("content", BsonValue.string p.Content),
        ("created_at", BsonValue.dateTime (toDateTime p.CreatedAt)),
        ("updated_at", BsonValue.dateTime (toDateTime p.UpdatedAt))]) ∧
    (wellFormedID p.ID →
      ∃ oid, ObjectIDFromHex p.ID = Except.ok oid ∧
        p.MarshalBSON = Except.ok [
          ("_id", BsonValue.objectID oid),
          ("title", BsonValue.string p.Title),
          ("content", BsonValue.string p.Content),
          ("created_at", BsonValue.dateTime (toDateTime p.CreatedAt)),
          ("updated_at", BsonValue.dateTime (toDateTime p.UpdatedAt))]) ∧
    (∀ doc, p.MarshalBSON = Except.ok doc → ∀ v, ("_id", v) ∈ doc →
      p.ID ≠ "" ∧ ∃ oid, ObjectIDFromHex p.ID = Except.ok oid ∧ v = BsonValue.objectID oid) := by
  refine ⟨?_, ?_, ?_⟩
  · intro h
    simp [Post.MarshalBSON, h]
  · intro hwf
    obtain ⟨oid, hoid⟩ := (ObjectIDFromHex_ok_iff p.ID).mpr hwf
    have hne : p.ID ≠ "" := ID_ne_empty_of_ok p.ID oid hoid
    exact ⟨oid, hoid, by simp [Post.MarshalBSON, hne, hoid]⟩
  · intro doc hdoc v hv
    unfold Post.MarshalBSON at hdoc
    split_ifs at hdoc with hempty
    · simp only [Except.ok.injEq] at hdoc
      subst hdoc
      simp at hv
    · refine ⟨hempty, ?_⟩
      cases hoid : ObjectIDFromHex p.ID with
      | error err => simp [hoid] at hdoc
      | ok oid =>
        simp only [hoid, Except.ok.injEq] at hdoc
        subst hdoc
        simp at hv
        exact ⟨oid, rfl, hv⟩

/-- C14 (as amended): for a post whose ID the identifier parser accepts,
`UnmarshalBSON` applied to the output of `MarshalBSON` succeeds and gives the
ID in lower case, which the parser reads as the same object id and which is
the ID itself when that has no upper-case letter, and the same Title and
Content; CreatedAt and UpdatedAt come back at most one millisecond before the
originals, each when its milliseconds since 1970 fit an `int64`. -/
theorem marshal_unmarshal_roundtrip (p : Post) (oid : ObjectID)
    (hid : ObjectIDFromHex p.ID = Except.ok oid) :
    ∃ doc q, p.MarshalBSON = Except.ok doc ∧ Post.UnmarshalBSON doc = Except.ok q ∧
      q.ID = String.mk (p.ID.data.map Char.toLower) ∧
      ObjectIDFromHex q.ID = Except.ok oid ∧
      ((∀ c ∈ p.ID.data, c.toLower = c) → q.ID = p.ID) ∧
      q.Title = p.Title ∧ q.Content = p.Content ∧
      (fitsDateTime p.CreatedAt →
        0 ≤ p.CreatedAt - q.CreatedAt ∧ p.CreatedAt - q.CreatedAt < 1000000) ∧
      (fitsDateTime p.UpdatedAt →
        0 ≤ p.UpdatedAt - q.UpdatedAt ∧ p.UpdatedAt - q.UpdatedAt < 1000000) := by
  have hne : p.ID ≠ "" := ID_ne_empty_of_ok p.ID oid hid
  have hhex := Hex_of_ObjectIDFromHex p.ID oid hid
  refine ⟨[("_id", BsonValue.objectID oid),
      ("title", BsonValue.string p.Title),
      ("content", BsonValue.string p.Content),
      ("created_at", BsonValue.dateTime (toDateTime p.CreatedAt)),
      ("updated_at", BsonValue.dateTime (toDateTime p.UpdatedAt))],
    (⟨oid.Hex, p.Title, p.Content, ofDateTime (toDateTime p.CreatedAt),
      ofDateTime (toDateTime p.UpdatedAt)⟩ : Post), ?_, ?_, hhex, ?_, ?_, rfl, rfl, ?_, ?_⟩
  · simp only [Post.MarshalBSON, hne, if_false, hid]
  · rfl
  · exact ObjectIDFromHex_Hex oid
  · intro hlow
    show oid.Hex = p.ID
    have hmap : p.ID.data.map Char.toLower = p.ID.data := by
      conv_rhs => rw [← List.map_id p.ID.data]
      exact List.map_congr_left hlow
    rw [hhex, hmap]
  · exact millisecond_truncation p.CreatedAt
  · exact millisecond_truncation p.UpdatedAt

/-- Witness for C14: a post with a lower-case id and times in the range. -/
theorem marshal_unmarshal_roundtrip_witness :
    ObjectIDFromHex updatedPost.ID = Except.ok (sampleID 1) ∧
    ∃ doc q, updatedPost.MarshalBSON = Except.ok doc ∧ Post.UnmarshalBSON doc = Except.ok q ∧
      q.ID = updatedPost.ID ∧ q.Title = updatedPost.Title ∧ q.Content = updatedPost.Content ∧
      (0 ≤ updatedPost.CreatedAt - q.CreatedAt ∧
        updatedPost.CreatedAt - q.CreatedAt < 1000000) ∧
      (0 ≤ updatedPost.UpdatedAt - q.UpdatedAt ∧
        updatedPost.UpdatedAt - q.UpdatedAt < 1000000) :=
  ⟨by decide,
    match marshal_unmarshal_roundtrip updatedPost (sampleID 1) (by decide) with
    | ⟨doc, q, h1, h2, _, _, h5, h6, h7, h8, h9⟩ =>
      ⟨doc, q, h1, h2, h5 (by decide), h6, h7, h8 (by decide), h9 (by decide)⟩⟩

/-- C14 as stated fails in two places.  For an ID with upper-case hex digits:
the parser accepts `ABCDEF0123456789ABCDEF01`, and the round trip gives back
`abcdef0123456789abcdef01`.  And for a time beyond the range of the BSON
datetime: `time.Unix(1<<62, 0)` is encoded as the datetime 0, because
`2^62 * 1000` wraps to 0 in `int64`, and comes back as the Unix epoch. -/
theorem roundtrip_case_and_range_counterexample :
    ObjectIDFromHex upperPost.ID
      = Except.ok ⟨[171, 205, 239, 1, 35, 69, 103, 137, 171, 205, 239, 1], rfl⟩ ∧
    upperPost.MarshalBSON = Except.ok [
      ("_id", BsonValue.objectID ⟨[171, 205, 239, 1, 35, 69, 103, 137, 171, 205, 239, 1], rfl⟩),
      ("title", BsonValue.string "Hello"),
      ("content", BsonValue.string "World"),
      ("created_at", BsonValue.dateTime 1700000000123),
      ("updated_at", BsonValue.dateTime 1700000000123)] ∧
    Post.UnmarshalBSON [
      ("_id", BsonValue.objectID ⟨[171, 205, 239, 1, 35, 69, 103, 137, 171, 205, 239, 1], rfl⟩),
      ("title", BsonValue.string "Hello"),
      ("content", BsonValue.string "World"),
      ("created_at", BsonValue.dateTime 1700000000123),
      ("updated_at", BsonValue.dateTime 1700000000123)]
      = Except.ok ⟨"abcdef0123456789abcdef01", "Hello", "World",
          1700000000123000000, 1700000000123000000⟩ ∧
    "abcdef0123456789abcdef01" ≠ upperPost.ID ∧
    ObjectIDFromHex farFuturePost.ID = Except.ok (sampleID 1) ∧
    farFuturePost.MarshalBSON = Except.ok [
      ("_id", BsonValue.objectID (sampleID 1)),
      ("title", BsonValue.string "Hello"),
      ("content", BsonValue.string "World"),
      ("created_at", BsonValue.dateTime 0),
      ("updated_at", BsonValue.dateTime 0)] ∧
    Post.UnmarshalBSON [
      ("_id", BsonValue.objectID (sampleID 1)),
      ("title", BsonValue.string "Hello"),
      ("content", BsonValue.string "World"),
      ("created_at", BsonValue.dateTime 0),
      ("updated_at", BsonValue.dateTime 0)]
      = Except.ok ⟨"000000000000000000000001", "Hello", "World", 0, 0⟩ ∧
    ¬ (farFuturePost.CreatedAt - 0 < 1000000) := by
  decide

/-! ## Lemmas: `float64` rounding -/

theorem roundHalfEven_cases (x : ℚ) :
    (roundHalfEven x = ⌊x⌋ ∧ x - ⌊x⌋ ≤ 1 / 2) ∨ (roundHalfEven x = ⌊x⌋ + 1 ∧ 1 / 2 ≤ x - ⌊x⌋) := by
  unfold roundHalfEven
  split_ifs with h1 h2 h3
  · exact Or.inl ⟨rfl, le_of_lt h1⟩
  · exact Or.inr ⟨rfl, le_of_lt h2⟩
  · exact Or.inl ⟨rfl, not_lt.mp h2⟩
  · exact Or.inr ⟨rfl, not_lt.mp h1⟩

theorem roundHalfEven_ge (x : ℚ) (N : ℤ) (h : (N : ℚ) ≤ x) : N ≤ roundHalfEven x := by
  have hf : N ≤ ⌊x⌋ := Int.le_floor.mpr h
  rcases roundHalfEven_cases x with ⟨e, _⟩ | ⟨e, _⟩ <;> omega

theorem roundHalfEven_le (x : ℚ) (N : ℤ) (h : x ≤ N) : roundHalfEven x ≤ N := by
  rcases roundHalfEven_cases x with ⟨e, _⟩ | ⟨e, hr⟩
  · rw [e]
    exact_mod_cast le_trans (Int.floor_le x) h
  · have h1 : (⌊x⌋ : ℚ) < N := by linarith
    have h2 : ⌊x⌋ < N := by exact_mod_cast h1
    omega

theorem roundHalfEven_gt (x : ℚ) (N : ℤ) (h : (N : ℚ) + 1 / 2 < x) : N < roundHalfEven x := by
  have hf : N ≤ ⌊x⌋ := Int.le_floor.mpr (by linarith)
  rcases roundHalfEven_cases x with ⟨e, hr⟩ | ⟨e, hr⟩
  · rw [e]
    by_contra hcon
    have h1 : ⌊x⌋ = N := by omega
    rw [h1] at hr
    linarith
  · omega

theorem roundHalfEven_intCast (N : ℤ) : roundHalfEven (N : ℚ) = N :=
  le_antisymm (roundHalfEven_le _ N le_rfl) (roundHalfEven_ge _ N le_rfl)

/-- The significand before rounding lies between `2^52` and `2^53`. -/
theorem scaled_bounds (x : ℚ) (hx : 0 < x) :
    (2 : ℚ) ^ (52 : ℤ) * 2 ^ (Int.log 2 |x| - 52) ≤ x ∧
    x < (2 : ℚ) ^ (53 : ℤ) * 2 ^ (Int.log 2 |x| - 52) := by
  rw [abs_of_pos hx]
  have h1 := Int.zpow_log_le_self (b := 2) (r := x) (by norm_num) hx
  have h2 := Int.lt_zpow_succ_log_self (R := ℚ) (b := 2) (by norm_num) x
  simp only [Nat.cast_ofNat] at h1 h2
  rw [← zpow_add₀ (by norm_num : (2 : ℚ) ≠ 0), ← zpow_add₀ (by norm_num : (2 : ℚ) ≠ 0)]
  have e1 : (52 : ℤ) + (Int.log 2 x - 52) = Int.log 2 x := by ring
  have e2 : (53 : ℤ) + (Int.log 2 x - 52) = Int.log 2 x + 1 := by ring
  rw [e1, e2]
  exact ⟨h1, h2⟩

theorem float64_round_of_pos (x : ℚ) (hx : 0 < x) :
    float64.round x
      = (roundHalfEven (x / 2 ^ (Int.log 2 |x| - 52)) : ℚ) * 2 ^ (Int.log 2 |x| - 52) := by
  unfold float64.round
  rw [if_neg (ne_of_gt hx)]

/-- Below `2^53` the unit of the last place is `1 / 2^n` for a natural `n`. -/
theorem ulp_of_lt (x : ℚ) (hx : 0 < x) (h53 : x < 2 ^ (53 : ℤ)) :
    ∃ n : ℕ, (2 : ℚ) ^ (Int.log 2 |x| - 52) = ((2 : ℚ) ^ n)⁻¹ := by
  rw [abs_of_pos hx]
  have hlog : Int.log 2 x < 53 := by
    have := (Int.lt_zpow_iff_log_lt (R := ℚ) (b := 2) (by norm_num) (x := 53) hx).mp
      (by simpa using h53)
    exact this
  refine ⟨(52 - Int.log 2 x).toNat, ?_⟩
  rw [← zpow_natCast, ← zpow_neg]
  congr 1
  omega

theorem float64_round_le (x : ℚ) (hx : 0 < x) (h53 : x < 2 ^ (53 : ℤ)) (k : ℤ)
    (hk : x ≤ k) : float64.round x ≤ k := by
  obtain ⟨n, hn⟩ := ulp_of_lt x hx h53
  rw [float64_round_of_pos x hx, hn]
  have hp : (0 : ℚ) < 2 ^ n := by positivity
  have h1 : x / ((2 : ℚ) ^ n)⁻¹ ≤ ((k * 2 ^ n : ℤ) : ℚ) := by
    rw [div_inv_eq_mul]
    push_cast
    exact mul_le_mul_of_nonneg_right hk hp.le
  have h2 := roundHalfEven_le _ _ h1
  have h3 : (roundHalfEven (x / ((2 : ℚ) ^ n)⁻¹) : ℚ) ≤ ((k * 2 ^ n : ℤ) : ℚ) := by
    exact_mod_cast h2
  calc (roundHalfEven (x / ((2 : ℚ) ^ n)⁻¹) : ℚ) * ((2 : ℚ) ^ n)⁻¹
      ≤ ((k * 2 ^ n : ℤ) : ℚ) * ((2 : ℚ) ^ n)⁻¹ :=
        mul_le_mul_of_nonneg_right h3 (inv_nonneg.mpr hp.le)
    _ = k := by
        push_cast
        field_simp

theorem float64_round_ge (x : ℚ) (hx : 0 < x) (h53 : x < 2 ^ (53 : ℤ)) (k : ℤ)
    (hk : (k : ℚ) ≤ x) : (k : ℚ) ≤ float64.round x := by
  obtain ⟨n, hn⟩ := ulp_of_lt x hx h53
  rw [float64_round_of_pos x hx, hn]
  have hp : (0 : ℚ) < 2 ^ n := by positivity
  have h1 : ((k * 2 ^ n : ℤ) : ℚ) ≤ x / ((2 : ℚ) ^ n)⁻¹ := by
    rw [div_inv_eq_mul]
    push_cast
    exact mul_le_mul_of_nonneg_right hk hp.le
  have h2 := roundHalfEven_ge _ _ h1
  have h3 : ((k * 2 ^ n : ℤ) : ℚ) ≤ (roundHalfEven (x / ((2 : ℚ) ^ n)⁻¹) : ℚ) := by
    exact_mod_cast h2
  calc (k : ℚ) = ((k * 2 ^ n : ℤ) : ℚ) * ((2 : ℚ) ^ n)⁻¹ := by
        push_cast
        field_simp
    _ ≤ (roundHalfEven (x / ((2 : ℚ) ^ n)⁻¹) : ℚ) * ((2 : ℚ) ^ n)⁻¹ :=
        mul_le_mul_of_nonneg_right h3 (inv_nonneg.mpr hp.le)

/-- A number more than `x / 2^53` above an integer is rounded to a number
above that integer. -/
theorem float64_round_gt (x : ℚ) (hx : 0 < x) (h53 : x < 2 ^ (53 : ℤ)) (k : ℤ)
    (hk : (k : ℚ) + x / 2 ^ (53 : ℤ) < x) : (k : ℚ) < float64.round x := by
  obtain ⟨n, hn⟩ := ulp_of_lt x hx h53
  have hsc := (scaled_bounds x hx).1
  rw [float64_round_of_pos x hx, hn]
  rw [hn] at hsc
  have hp : (0 : ℚ) < 2 ^ n := by positivity
  have hulp : ((2 : ℚ) ^ n)⁻¹ / 2 ≤ x / 2 ^ (53 : ℤ) := by
    have e : (2 : ℚ) ^ (53 : ℤ) = 2 ^ (52 : ℤ) * 2 := by norm_num
    rw [e, div_le_div_iff₀ (by norm_num) (by positivity)]
    nlinarith [hsc]
  have h1 : ((k * 2 ^ n : ℤ) : ℚ) + 1 / 2 < x / ((2 : ℚ) ^ n)⁻¹ := by
    rw [div_inv_eq_mul]
    push_cast
    have hgap : ((2 : ℚ) ^ n)⁻¹ / 2 < x - k := by linarith
    have := mul_lt_mul_of_pos_right hgap hp
    have e2 : ((2 : ℚ) ^ n)⁻¹ / 2 * 2 ^ n = 1 / 2 := by field_simp
    rw [e2] at this
    linarith
  have h2 := roundHalfEven_gt _ _ h1
  have h3 : ((k * 2 ^ n : ℤ) : ℚ) + 1 ≤ (roundHalfEven (x / ((2 : ℚ) ^ n)⁻¹) : ℚ) := by
    exact_mod_cast h2
  have h4 : (((k * 2 ^ n : ℤ) : ℚ) + 1) * ((2 : ℚ) ^ n)⁻¹
      ≤ (roundHalfEven (x / ((2 : ℚ) ^ n)⁻¹) : ℚ) * ((2 : ℚ) ^ n)⁻¹ :=
    mul_le_mul_of_nonneg_right h3 (inv_nonneg.mpr hp.le)
  have h5 : (((k * 2 ^ n : ℤ) : ℚ) + 1) * ((2 : ℚ) ^ n)⁻¹ = k + ((2 : ℚ) ^ n)⁻¹ := by
    push_cast
    field_simp
  have h6 : (0 : ℚ) < ((2 : ℚ) ^ n)⁻¹ := inv_pos.mpr hp
  linarith

/-- Rounding never brings a positive number below `2^52` units of the last
place. -/
theorem float64_round_pos (x : ℚ) (hx : 0 < x) :
    (2 : ℚ) ^ (52 : ℤ) * 2 ^ (Int.log 2 |x| - 52) ≤ float64.round x := by
  have hsc := (scaled_bounds x hx).1
  rw [float64_round_of_pos x hx]
  have hp : (0 : ℚ) < 2 ^ (Int.log 2 |x| - 52) := by positivity
  have h1 : (((2 : ℤ) ^ 52 : ℤ) : ℚ) ≤ x / 2 ^ (Int.log 2 |x| - 52) := by
    rw [le_div_iff₀ hp]
    push_cast
    exact_mod_cast hsc
  have h2 := roundHalfEven_ge _ _ h1
  have h3 : (((2 : ℤ) ^ 52 : ℤ) : ℚ) ≤ (roundHalfEven (x / 2 ^ (Int.log 2 |x| - 52)) : ℚ) := by
    exact_mod_cast h2
  calc (2 : ℚ) ^ (52 : ℤ) * 2 ^ (Int.log 2 |x| - 52)
      = (((2 : ℤ) ^ 52 : ℤ) : ℚ) * 2 ^ (Int.log 2 |x| - 52) := by norm_num
    _ ≤ _ := mul_le_mul_of_nonneg_right h3 hp.le

theorem two53_cast : (2 : ℚ) ^ (53 : ℤ) = ((2 ^ 53 : ℤ) : ℚ) := by norm_num

theorem intCast_lt_two53 (n : ℤ) (h : n < 2 ^ 53) : (n : ℚ) < 2 ^ (53 : ℤ) := by
  rw [two53_cast]
  exact Int.cast_lt.mpr h

theorem two53_le_intCast (n : ℤ) (h : 2 ^ 53 ≤ n) : (2 : ℚ) ^ (53 : ℤ) ≤ n := by
  rw [two53_cast]
  exact Int.cast_le.mpr h

theorem float64_ofInt_exact (n : ℤ) (h0 : 0 ≤ n) (h53 : n < 2 ^ 53) : float64.ofInt n = n := by
  unfold float64.ofInt
  rcases eq_or_lt_of_le h0 with h | h
  · rw [← h]
    simp [float64.round]
  · have hx : (0 : ℚ) < n := by exact_mod_cast h
    have hlt : (n : ℚ) < 2 ^ (53 : ℤ) := intCast_lt_two53 n h53
    exact le_antisymm (float64_round_le _ hx hlt n le_rfl) (float64_round_ge _ hx hlt n le_rfl)

theorem float64_ofInt_large (n : ℤ) (h53 : 2 ^ 53 ≤ n) : (2 : ℚ) ^ (53 : ℤ) ≤ float64.ofInt n := by
  have hge : (2 : ℚ) ^ (53 : ℤ) ≤ n := two53_le_intCast n h53
  have hx : (0 : ℚ) < n := lt_of_lt_of_le (by positivity) hge
  have hlog : (53 : ℤ) ≤ Int.log 2 |(n : ℚ)| := by
    rw [abs_of_pos hx]
    exact (Int.zpow_le_iff_le_log (R := ℚ) (b := 2) (by norm_num) hx).mp (by simpa using hge)
  have hpos := float64_round_pos (n : ℚ) hx
  have hmono : (2 : ℚ) ^ (1 : ℤ) ≤ 2 ^ (Int.log 2 |(n : ℚ)| - 52) :=
    zpow_le_zpow_right₀ (by norm_num) (by omega)
  have e : (2 : ℚ) ^ (53 : ℤ) = 2 ^ (52 : ℤ) * 2 ^ (1 : ℤ) := by norm_num
  unfold float64.ofInt
  calc (2 : ℚ) ^ (53 : ℤ) = 2 ^ (52 : ℤ) * 2 ^ (1 : ℤ) := e
    _ ≤ 2 ^ (52 : ℤ) * 2 ^ (Int.log 2 |(n : ℚ)| - 52) :=
        mul_le_mul_of_nonneg_left hmono (by positivity)
    _ ≤ _ := hpos

theorem float64_toInt64_intCast (outside K : ℤ) (h0 : 0 ≤ K) (h63 : K < 2 ^ 63) :
    float64.toInt64 outside (K : ℚ) = K := by
  unfold float64.toInt64
  have hnn : (0 : ℚ) ≤ K := by exact_mod_cast h0
  simp only [hnn, if_true, Int.floor_intCast]
  rw [if_pos ⟨by omega, h63⟩]

/-- The quotient of a positive `total` below `2^53` by a divisor `d >= 1`,
rounded, has the ceiling `K` whenever `total` lies in `((K-1)*d, K*d]` with an
integer margin: `total >= (K-1)*d + m` for some `m` with `total < 2^53 * m`. -/
theorem ceil_round_div (total : ℤ) (d : ℚ) (K : ℤ) (ht : 0 < total) (h53 : total < 2 ^ 53)
    (hd : 1 ≤ d) (hle : (total : ℚ) ≤ K * d) (m : ℚ)
    (hgap : ((K : ℚ) - 1) * d + m ≤ total) (hm : (total : ℚ) < 2 ^ (53 : ℤ) * m) :
    ⌈float64.round ((total : ℚ) / d)⌉ = K := by
  have hdpos : (0 : ℚ) < d := by linarith
  have htq : (0 : ℚ) < total := by exact_mod_cast ht
  have hx : (0 : ℚ) < (total : ℚ) / d := div_pos htq hdpos
  have ht53 : (total : ℚ) < 2 ^ (53 : ℤ) := intCast_lt_two53 total h53
  have hx53 : (total : ℚ) / d < 2 ^ (53 : ℤ) := by
    rw [div_lt_iff₀ hdpos]
    nlinarith
  rw [Int.ceil_eq_iff]
  constructor
  · have := float64_round_gt _ hx hx53 (K - 1) (by
      push_cast
      rw [div_div, ← sub_pos]
      have e : (total : ℚ) / d - ((K : ℚ) - 1 + total / (d * 2 ^ (53 : ℤ)))
          = ((total : ℚ) * 2 ^ (53 : ℤ) - ((K : ℚ) - 1) * d * 2 ^ (53 : ℤ) - total)
              / (d * 2 ^ (53 : ℤ)) := by
        field_simp
        ring
      rw [e]
      apply div_pos _ (by positivity)
      have hp53 : (0 : ℚ) < 2 ^ (53 : ℤ) := by positivity
      nlinarith)
    push_cast at this
    exact this
  · exact float64_round_le _ hx hx53 K (by
      rw [div_le_iff₀ hdpos]
      exact hle)

/-- The page count the list handler computes in `float64` is the exact integer
ceiling of `total / limit` when `total` is below `2^53`. -/
theorem totalPages_exact (outside total limit : ℤ) (h0 : 0 ≤ total) (h53 : total < 2 ^ 53)
    (hl : 1 ≤ limit) :
    float64.toInt64 outside
        (math.Ceil (float64.div (float64.ofInt total) (float64.ofInt limit)))
      = ⌈(total : ℚ) / (limit : ℚ)⌉ := by
  have hlq : (1 : ℚ) ≤ limit := by exact_mod_cast hl
  have hlpos : (0 : ℚ) < limit := by linarith
  have hfa := float64_ofInt_exact total h0 h53
  unfold math.Ceil float64.div
  rw [hfa]
  rcases eq_or_lt_of_le h0 with hz | hpos
  · rw [← hz]
    simp [float64.round, float64.toInt64]
  · have htq : (0 : ℚ) < total := by exact_mod_cast hpos
    have ht53 := intCast_lt_two53 total h53
    have hKpos : 0 < ⌈(total : ℚ) / (limit : ℚ)⌉ := Int.ceil_pos.mpr (div_pos htq hlpos)
    have hKle : ⌈(total : ℚ) / (limit : ℚ)⌉ ≤ total := by
      rw [Int.ceil_le]
      rw [div_le_iff₀ hlpos]
      nlinarith
    have hceil : ⌈float64.round ((total : ℚ) / float64.ofInt limit)⌉
        = ⌈(total : ℚ) / (limit : ℚ)⌉ := by
      rcases lt_or_le limit (2 ^ 53) with hsmall | hlarge
      · rw [float64_ofInt_exact limit (by omega) hsmall]
        have hK1 : (total : ℚ) / limit ≤ ⌈(total : ℚ) / (limit : ℚ)⌉ := Int.le_ceil _
        have hK2 : ((⌈(total : ℚ) / (limit : ℚ)⌉ : ℤ) : ℚ) - 1 < (total : ℚ) / limit := by
          have := Int.ceil_lt_add_one ((total : ℚ) / (limit : ℚ))
          linarith
        rw [div_le_iff₀ hlpos] at hK1
        rw [lt_div_iff₀ hlpos] at hK2
        have hK3 : (⌈(total : ℚ) / (limit : ℚ)⌉ - 1) * limit < total := by exact_mod_cast hK2
        have hK4 : (⌈(total : ℚ) / (limit : ℚ)⌉ - 1) * limit + 1 ≤ total := by omega
        have hK5 : (((⌈(total : ℚ) / (limit : ℚ)⌉ : ℤ) : ℚ) - 1) * limit + 1 ≤ total := by
          exact_mod_cast hK4
        exact ceil_round_div total limit _ hpos h53 hlq hK1 1 hK5 (by linarith)
      · have hfb := float64_ofInt_large limit hlarge
        have hp53 : (1 : ℚ) < 2 ^ (53 : ℤ) := by norm_num
        have hone : ⌈(total : ℚ) / (limit : ℚ)⌉ = 1 := by
          rw [Int.ceil_eq_iff]
          constructor
          · simpa using div_pos htq hlpos
          · rw [div_le_iff₀ hlpos]
            have := two53_le_intCast limit hlarge
            push_cast
            linarith
        rw [hone]
        exact ceil_round_div total (float64.ofInt limit) 1 hpos h53 (by linarith)
          (by push_cast; linarith) total (by push_cast; linarith) (by nlinarith)
    rw [hceil]
    exact float64_toInt64_intCast outside _ hKpos.le (by omega)

/-! ## Lemmas: the list handler -/

theorem handler_List_eq {σ : Type} (svc : Service σ) (outside : Int) (r : Request) (s : σ) :
    handler.List svc outside r s
      = match listQuery svc r.Query s with
        | ((_, _, some err), s1) =>
          (Event.Log "List error" err :: httpError "server error" 422, s1)
        | ((posts, total, none), s1) =>
          (listRender r.Header
            (listData outside r.Query posts (svc.GetRecent 5 s1).1.1 total),
            (svc.GetRecent 5 s1).2) := by
  have key : ∀ res : (List Post × Int × Option Error) × σ,
      (match res with
        | ((_, _, some err), s1) =>
          ((Event.Log "List error" err :: httpError "server error" 422, s1) : Events × σ)
        | ((posts, total, none), s1) =>
          match svc.GetRecent 5 s1 with
          | ((recent, _), s2) =>
            if Header.Get r.Header "HX-Request" = "true" then
              ([Event.Render "list"
                  (TemplateData.listPage (listData outside r.Query posts recent total)),
                Event.Render "pagination"
                  (TemplateData.listPage (listData outside r.Query posts recent total))], s2)
            else
              ([Event.Render "base"
                  (TemplateData.listPage (listData outside r.Query posts recent total))], s2))
      = match res with
        | ((_, _, some err), s1) =>
          (Event.Log "List error" err :: httpError "server error" 422, s1)
        | ((posts, total, none), s1) =>
          (listRender r.Header
            (listData outside r.Query posts (svc.GetRecent 5 s1).1.1 total),
            (svc.GetRecent 5 s1).2) := by
    rintro ⟨⟨posts, total, err⟩, s1⟩
    cases err with
    | some e => rfl
    | none =>
      show (match svc.GetRecent 5 s1 with | ((recent, _), s2) => _) = _
      unfold listRender
      split_ifs <;> rfl
  exact key (listQuery svc r.Query s)

theorem handler_List_of_error {σ : Type} (svc : Service σ) (outside : Int) (r : Request)
    (s s1 : σ) (posts : List Post) (total : Int) (err : Error)
    (h : listQuery svc r.Query s = ((posts, total, some err), s1)) :
    handler.List svc outside r s
      = (Event.Log "List error" err :: httpError "server error" 422, s1) := by
  rw [handler_List_eq, h]

theorem handler_List_of_ok {σ : Type} (svc : Service σ) (outside : Int) (r : Request)
    (s s1 : σ) (posts : List Post) (total : Int)
    (h : listQuery svc r.Query s = ((posts, total, none), s1)) :
    handler.List svc outside r s
      = (listRender r.Header
          (listData outside r.Query posts (svc.GetRecent 5 s1).1.1 total),
          (svc.GetRecent 5 s1).2) := by
  rw [handler_List_eq, h]

theorem TrimSpace_ne_empty_iff (q : String) : strings.TrimSpace q ≠ "" ↔ nonBlank q := by
  unfold strings.TrimSpace nonBlank
  have hmk : ∀ l : List Char, String.mk l ≠ "" ↔ l ≠ [] := by
    intro l
    constructor
    · intro h hl
      exact h (by rw [hl])
    · intro h hs
      exact h (by simpa using congrArg String.data hs)
  rw [hmk, Ne, List.reverse_eq_nil_iff, List.dropWhile_eq_nil_iff]
  constructor
  · intro h
    by_contra hcon
    apply h
    have hall : ∀ c ∈ q.data, unicode.IsSpace c = true := by
      intro c hc
      by_contra hsp
      exact hcon ⟨c, hc, by simpa using hsp⟩
    rw [List.dropWhile_eq_nil_iff.mpr hall]
    simp
  · rintro ⟨c, hc, hsp⟩ hall
    have hne : q.data.dropWhile unicode.IsSpace ≠ [] := by
      intro hnil
      have := List.dropWhile_eq_nil_iff.mp hnil c hc
      rw [hsp] at this
      exact absurd this (by simp)
    have hhead := List.head_dropWhile_not unicode.IsSpace q.data hne
    have hmem : (q.data.dropWhile unicode.IsSpace).head hne
        ∈ (q.data.dropWhile unicode.IsSpace).reverse :=
      List.mem_reverse.mpr (List.head_mem hne)
    have := hall _ hmem
    rw [this] at hhead
    exact absurd hhead (by simp)


theorem listPage_eq (query : Values) :
    listPage query
      = match decimalValue (query.Get "page") with
        | none => 1
        | some v => if v < 1 then 1 else if maxInt64 < v then maxInt64 else v := by
  unfold listPage strconv.ParseInt maxInt64
  cases decimalValue (query.Get "page") with
  | none => simp
  | some v =>
    simp only
    norm_num
    split_ifs <;> simp_all <;> omega

theorem listLimit_eq (query : Values) :
    listLimit query
      = match decimalValue (query.Get "limit") with
        | none => 3
        | some v => if v < 1 then 3 else if maxInt64 < v then maxInt64 else v := by
  unfold listLimit strconv.ParseInt maxInt64
  cases decimalValue (query.Get "limit") with
  | none => simp
  | some v =>
    simp only
    norm_num
    split_ifs <;> simp_all <;> omega

theorem listLimit_pos (query : Values) : 1 ≤ listLimit query := by
  unfold listLimit
  split_ifs with h
  · norm_num
  · omega

theorem traced_listQuery {σ : Type} (svc : Service σ) (query : Values) (s : σ) :
    listQuery (traced svc) query (s, [])
      = ((listQuery svc query s).1,
          ((listQuery svc query s).2,
            [if nonBlank (query.Get "q") then
                Call.Search (query.Get "q") (listPage query) (listLimit query)
              else Call.GetAll (listPage query) (listLimit query)])) := by
  unfold listQuery
  by_cases h : nonBlank (query.Get "q")
  · rw [if_pos ((TrimSpace_ne_empty_iff _).mpr h), if_pos ((TrimSpace_ne_empty_iff _).mpr h),
      if_pos h]
    rfl
  · have h' : ¬ strings.TrimSpace (query.Get "q") ≠ "" := fun hc =>
      h ((TrimSpace_ne_empty_iff _).mp hc)
    rw [if_neg h', if_neg h', if_neg h]
    rfl

theorem traced_List_calls {σ : Type} (svc : Service σ) (outside : Int) (r : Request) (s : σ) :
    ∃ tail, (tail = [] ∨ tail = [Call.GetRecent 5]) ∧
      (handler.List (traced svc) outside r (s, [])).2.2
        = (if nonBlank (r.Query.Get "q") then
              Call.Search (r.Query.Get "q") (listPage r.Query) (listLimit r.Query)
            else Call.GetAll (listPage r.Query) (listLimit r.Query)) :: tail := by
  rw [handler_List_eq, traced_listQuery]
  rcases hres : listQuery svc r.Query s with ⟨⟨posts, total, err⟩, s1⟩
  cases err with
  | some e => exact ⟨[], Or.inl rfl, rfl⟩
  | none => exact ⟨[Call.GetRecent 5], Or.inr rfl, rfl⟩

/-! ## Theorems: the handlers -/

/-- C15: `handler.List` calls `Search`, with the `q` parameter as given, and
not `GetAll` iff `q` has a character that is no white space; for a `q` that is
absent, empty or all white space it calls `GetAll` and not `Search`.  The
calls are those a recording service receives, whatever it answers: the query,
followed by `GetRecent(5)` when the query succeeded. -/
theorem list_searches_iff_nonblank {σ : Type} (svc : Service σ) (outside : Int) (r : Request)
    (s : σ) :
    ((∃ page limit, Call.Search (r.Query.Get "q") page limit
        ∈ (handler.List (traced svc) outside r (s, [])).2.2) ↔ nonBlank (r.Query.Get "q")) ∧
    ((∃ page limit, Call.GetAll page limit
        ∈ (handler.List (traced svc) outside r (s, [])).2.2) ↔ ¬ nonBlank (r.Query.Get "q")) ∧
    (∀ q page limit, Call.Search q page limit
        ∈ (handler.List (traced svc) outside r (s, [])).2.2 → q = r.Query.Get "q") ∧
    (r.Query.lookup "q" = none → ¬ nonBlank (r.Query.Get "q")) := by
  obtain ⟨tail, htail, hcalls⟩ := traced_List_calls svc outside r s
  rw [hcalls]
  by_cases h : nonBlank (r.Query.Get "q")
  · rw [if_pos h]
    refine ⟨⟨fun _ => h, fun _ => ⟨_, _, List.mem_cons_self _ _⟩⟩, ⟨?_, fun hn => absurd h hn⟩,
      ?_, ?_⟩
    · rintro ⟨page, limit, hmem⟩
      rcases htail with rfl | rfl <;> simp at hmem
    · intro q page limit hmem
      rcases htail with rfl | rfl <;> simp at hmem <;> exact hmem.1
    · intro hnone
      rw [Values.Get, hnone] at h
      exact absurd h (by decide)
  · rw [if_neg h]
    refine ⟨⟨?_, fun hn => absurd hn h⟩, ⟨fun _ => h, fun _ => ⟨_, _, List.mem_cons_self _ _⟩⟩,
      ?_, fun _ => h⟩
    · rintro ⟨page, limit, hmem⟩
      rcases htail with rfl | rfl <;> simp at hmem
    · intro q page limit hmem
      rcases htail with rfl | rfl <;> simp at hmem

/-- C16 (as amended): for a `total` from 0 to below `2^53` returned by the
service, and the limit `>= 1` the list handler works with, the `TotalPages` of
the view-model is `max(ceil(total/limit), 1)` with the exact integer ceiling
of the quotient. -/
theorem total_pages_is_ceiling {σ : Type} (svc : Service σ) (outside : Int) (r : Request)
    (s s1 : σ) (posts : List Post) (total : Int)
    (h : listQuery svc r.Query s = ((posts, total, none), s1))
    (h0 : 0 ≤ total) (h53 : total < 2 ^ 53) :
    ∃ data : ListPageData,
      (handler.List svc outside r s).1 = listRender r.Header data ∧
      data.Total = total ∧ data.Limit = listLimit r.Query ∧ 1 ≤ data.Limit ∧
      data.TotalPages = max ⌈(total : ℚ) / (data.Limit : ℚ)⌉ 1 := by
  refine ⟨listData outside r.Query posts (svc.GetRecent 5 s1).1.1 total, ?_, rfl, rfl,
    listLimit_pos r.Query, ?_⟩
  · rw [handler_List_of_ok svc outside r s s1 posts total h]
  · have hl := listLimit_pos r.Query
    show max (if listLimit r.Query > 0 then _ else 1) 1 = _
    rw [if_pos (by omega), totalPages_exact outside total (listLimit r.Query) h0 h53 hl]
    rfl

/-- C17 (as amended): `handler.List` asks the service for page 1 when the
`page` parameter is absent, no decimal integer, or an integer below 1, and
for limit 3 when the `limit` parameter is; a parameter that is an integer from
1 to `2^63-1` is passed on as given, and a larger one as `2^63-1`.  The query
the service receives first carries that page and limit. -/
theorem list_paging_parameters {σ : Type} (svc : Service σ) (outside : Int) (r : Request)
    (s : σ) :
    (r.Query.lookup "page" = none → listPage r.Query = 1) ∧
    (decimalValue (r.Query.Get "page") = none → listPage r.Query = 1) ∧
    (∀ v, decimalValue (r.Query.Get "page") = some v →
      (v < 1 → listPage r.Query = 1) ∧
      (1 ≤ v → v ≤ maxInt64 → listPage r.Query = v) ∧
      (maxInt64 < v → listPage r.Query = maxInt64)) ∧
    (r.Query.lookup "limit" = none → listLimit r.Query = 3) ∧
    (decimalValue (r.Query.Get "limit") = none → listLimit r.Query = 3) ∧
    (∀ v, decimalValue (r.Query.Get "limit") = some v →
      (v < 1 → listLimit r.Query = 3) ∧
      (1 ≤ v → v ≤ maxInt64 → listLimit r.Query = v) ∧
      (maxInt64 < v → listLimit r.Query = maxInt64)) ∧
    ((handler.List (traced svc) outside r (s, [])).2.2.head?
        = some (Call.GetAll (listPage r.Query) (listLimit r.Query)) ∨
      (handler.List (traced svc) outside r (s, [])).2.2.head?
        = some (Call.Search (r.Query.Get "q") (listPage r.Query) (listLimit r.Query))) := by
  have hmax : (1 : Int) ≤ maxInt64 := by decide
  have hempty : decimalValue "" = none := rfl
  refine ⟨?_, ?_, ?_, ?_, ?_, ?_, ?_⟩
  · intro hnone
    rw [listPage_eq, Values.Get, hnone]
    rfl
  · intro hnone
    rw [listPage_eq, hnone]
  · intro v hv
    rw [listPage_eq, hv]
    refine ⟨fun h => by simp [h], fun h1 h2 => ?_, fun h => ?_⟩
    · simp only [not_lt.mpr h1, not_lt.mpr h2, if_false]
    · have h1 : ¬ v < 1 := by omega
      simp only [h1, h, if_false, if_true]
  · intro hnone
    rw [listLimit_eq, Values.Get, hnone]
    rfl
  · intro hnone
    rw [listLimit_eq, hnone]
  · intro v hv
    rw [listLimit_eq, hv]
    refine ⟨fun h => by simp [h], fun h1 h2 => ?_, fun h => ?_⟩
    · simp only [not_lt.mpr h1, not_lt.mpr h2, if_false]
    · have h1 : ¬ v < 1 := by omega
      simp only [h1, h, if_false, if_true]
  · obtain ⟨tail, -, hcalls⟩ := traced_List_calls svc outside r s
    rw [hcalls]
    by_cases h : nonBlank (r.Query.Get "q")
    · rw [if_pos h]
      exact Or.inr rfl
    · rw [if_neg h]
      exact Or.inl rfl

/-- C17 as stated fails for an integer beyond the `int64` range: the request
`page=99999999999999999999` makes the handler ask for page `2^63-1`, not for
the page given. -/
theorem list_page_out_of_range_counterexample :
    decimalValue "99999999999999999999" = some 99999999999999999999 ∧
    (handler.List (traced (mockService ([], 0, none) (none, none))) 0
        ⟨[("page", "99999999999999999999")], [], ""⟩ ((), [])).2.2
      = [Call.GetAll 9223372036854775807 3, Call.GetRecent 5] ∧
    (9223372036854775807 : Int) ≠ 99999999999999999999 := by
  decide

/-- In the binade of `2^53` the numbers with a 53-bit significand are the even
integers. -/
theorem float64_round_binade53 (x : ℚ) (h1 : (2 : ℚ) ^ (53 : ℤ) ≤ x)
    (h2 : x < (2 : ℚ) ^ (54 : ℤ)) : float64.round x = (roundHalfEven (x / 2) : ℚ) * 2 := by
  have hx : (0 : ℚ) < x := lt_of_lt_of_le (by positivity) h1
  have hlog : Int.log 2 |x| = 53 := by
    rw [abs_of_pos hx]
    apply le_antisymm
    · have := (Int.lt_zpow_iff_log_lt (R := ℚ) (b := 2) (by norm_num) (x := 54) hx).mp
        (by simpa using h2)
      omega
    · exact (Int.zpow_le_iff_le_log (R := ℚ) (b := 2) (by norm_num) hx).mp (by simpa using h1)
  rw [float64_round_of_pos x hx, hlog]
  norm_num

/-- The page count the list handler computes for `total = 2^53 + 1` and
`limit = 1`: the conversion to `float64` rounds the total to `2^53`. -/
theorem totalPages_two53_succ (outside : ℤ) :
    float64.toInt64 outside
        (math.Ceil (float64.div (float64.ofInt 9007199254740993) (float64.ofInt 1)))
      = 9007199254740992 := by
  have hone : float64.ofInt 1 = 1 := by
    have := float64_ofInt_exact 1 (by norm_num) (by norm_num)
    simpa using this
  have hfloor : ⌊(9007199254740993 : ℚ) / 2⌋ = 4503599627370496 := by
    rw [Int.floor_eq_iff]
    norm_num
  have hrhe : roundHalfEven ((9007199254740993 : ℚ) / 2) = 4503599627370496 := by
    unfold roundHalfEven
    rw [hfloor]
    norm_num
  have hbig : float64.ofInt 9007199254740993 = 9007199254740992 := by
    unfold float64.ofInt
    have := float64_round_binade53 (9007199254740993 : ℚ) (by norm_num) (by norm_num)
    rw [hrhe] at this
    push_cast
    rw [this]
    norm_num
  have hrhe2 : roundHalfEven ((9007199254740992 : ℚ) / 2) = 4503599627370496 := by
    have e : (9007199254740992 : ℚ) / 2 = ((4503599627370496 : ℤ) : ℚ) := by norm_num
    rw [e, roundHalfEven_intCast]
  have hdiv : float64.div 9007199254740992 1 = 9007199254740992 := by
    unfold float64.div
    rw [div_one, float64_round_binade53 (9007199254740992 : ℚ) (by norm_num) (by norm_num),
      hrhe2]
    norm_num
  rw [hone, hbig, hdiv]
  unfold math.Ceil
  have hceil : ⌈(9007199254740992 : ℚ)⌉ = 9007199254740992 := by
    have e : (9007199254740992 : ℚ) = ((9007199254740992 : ℤ) : ℚ) := by norm_num
    rw [e, Int.ceil_intCast]
  rw [hceil]
  exact float64_toInt64_intCast outside 9007199254740992 (by norm_num) (by norm_num)

/-- Witness for C16: a total of 7 with the limit 5 of `searchRequest` makes 2
pages. -/
theorem total_pages_is_ceiling_witness :
    listQuery (mockService ([], 7, none) (none, none)) searchRequest.Query ()
      = (([], 7, none), ()) ∧
    (0 : Int) ≤ 7 ∧ (7 : Int) < 2 ^ 53 ∧
    ∃ data : ListPageData,
      (handler.List (mockService ([], 7, none) (none, none)) 0 searchRequest ()).1
        = listRender searchRequest.Header data ∧
      data.Total = 7 ∧ data.Limit = 5 ∧ data.TotalPages = 2 :=
  ⟨by decide, by decide, by decide,
    match total_pages_is_ceiling (mockService ([], 7, none) (none, none)) 0 searchRequest
      () () [] 7 (by decide) (by decide) (by decide) with
    | ⟨data, h1, h2, h3, _, h5⟩ =>
      ⟨data, h1, h2, h3.trans (by decide), by
        rw [h5, h3, show listLimit searchRequest.Query = 5 by decide]
        have hc : ⌈((7 : ℤ) : ℚ) / ((5 : ℤ) : ℚ)⌉ = 2 := by
          rw [Int.ceil_eq_iff]
          norm_num
        rw [hc]
        rfl⟩⟩

/-- C16 as stated fails for a total that `float64` cannot hold: with
`total = 2^53 + 1` and `limit = 1` the view-model gets `TotalPages = 2^53`,
while the exact ceiling of `total/limit` is `2^53 + 1`. -/
theorem total_pages_float_counterexample :
    (0 : Int) ≤ 9007199254740993 ∧ (1 : Int) ≤ 1 ∧
    (handler.List (mockService ([], 9007199254740993, none) (none, none)) (-2 ^ 63)
        ⟨[("limit", "1")], [], ""⟩ ()).1
      = [Event.Render "base" (TemplateData.listPage
          ⟨[], [], "", 1, 1, 9007199254740993, 9007199254740992, "", "", ""⟩)] ∧
    max ⌈((9007199254740993 : ℤ) : ℚ) / ((1 : ℤ) : ℚ)⌉ 1 = 9007199254740993 := by
  refine ⟨by decide, by decide, ?_, ?_⟩
  · rw [handler_List_of_ok _ _ _ () () [] 9007199254740993 (by decide)]
    have hl : listLimit [("limit", "1")] = 1 := by decide
    have hp : listPage [("limit", "1")] = 1 := by decide
    have hq : Values.Get [("limit", "1")] "q" = "" := by decide
    have hdata : listData (-2 ^ 63) [("limit", "1")] []
        ((mockService ([], 9007199254740993, none) (none, none)).GetRecent 5 ()).1.1
        9007199254740993
        = ⟨[], [], "", 1, 1, 9007199254740993, 9007199254740992, "", "", ""⟩ := by
      unfold listData
      rw [hl, hp, hq, if_pos (by decide), totalPages_two53_succ]
      rfl
    show listRender [] (listData (-2 ^ 63) [("limit", "1")] [] _ 9007199254740993) = _
    rw [hdata]
    rfl
  · have hc : ⌈((9007199254740993 : ℤ) : ℚ) / ((1 : ℤ) : ℚ)⌉ = 9007199254740993 := by
      rw [Int.ceil_eq_iff]
      norm_num
    rw [hc]
    rfl

/-- C18: when `GetByID` returns `ErrPostNotFound`, `handler.Show` and
`handler.EditForm` respond with HTTP 404 and render no template; when it
returns a post, they respond with HTTP 200. -/
theorem show_edit_status {σ : Type} (svc : Service σ) (r : Request) (s : σ) :
    (∀ (p : Option Post) (s1 : σ),
      svc.GetByID r.PathID s = ((p, some Error.ErrPostNotFound), s1) →
      statusCode (handler.Show svc r s).1 = some 404 ∧
      renderedNames (handler.Show svc r s).1 = [] ∧
      statusCode (handler.EditForm svc r s).1 = some 404 ∧
      renderedNames (handler.EditForm svc r s).1 = []) ∧
    (∀ (post : Post) (s1 : σ), svc.GetByID r.PathID s = ((some post, none), s1) →
      statusCode (handler.Show svc r s).1 = some 200 ∧
      statusCode (handler.EditForm svc r s).1 = some 200) := by
  constructor
  · intro p s1 h
    simp only [handler.Show, handler.EditForm, h]
    exact ⟨rfl, rfl, rfl, rfl⟩
  · intro post s1 h
    simp only [handler.Show, handler.EditForm, h]
    refine ⟨?_, rfl⟩
    split_ifs <;> rfl

/-- Witness for C18: over the five stored posts, `GET /posts/{id}` is 404 for
an id no post has and 200 for the id of the first post. -/
theorem show_edit_status_witness :
    storedService.GetByID (showRequest "000000000000000000000009").PathID
        (plainCollection lettersDocs)
      = ((none, some Error.ErrPostNotFound), plainCollection lettersDocs) ∧
    statusCode (handler.Show storedService (showRequest "000000000000000000000009")
      (plainCollection lettersDocs)).1 = some 404 ∧
    storedService.GetByID (showRequest "000000000000000000000001").PathID
        (plainCollection lettersDocs)
      = ((some ⟨"000000000000000000000001", "Title A", "Content A", 1000000000, 1000000000⟩,
          none), plainCollection lettersDocs) ∧
    statusCode (handler.Show storedService (showRequest "000000000000000000000001")
      (plainCollection lettersDocs)).1 = some 200 :=
  ⟨rfl,
    ((show_edit_status storedService (showRequest "000000000000000000000009")
      (plainCollection lettersDocs)).1 none (plainCollection lettersDocs) rfl).1,
    rfl,
    ((show_edit_status storedService (showRequest "000000000000000000000001")
      (plainCollection lettersDocs)).2
      ⟨"000000000000000000000001", "Title A", "Content A", 1000000000, 1000000000⟩
      (plainCollection lettersDocs) rfl).1⟩

/-- C19 (as amended): `handler.List` responds with HTTP 422 when its query,
`GetAll` or `Search`, returns an error, whichever error it is; `handler.Show`
and `handler.EditForm` respond with HTTP 404 to every error of `GetByID`,
`ErrPostNotFound` or not. -/
theorem read_path_error_status {σ : Type} (svc : Service σ) (outside : Int) (r : Request)
    (s : σ) :
    (∀ (posts : List Post) (total : Int) (err : Error) (s1 : σ),
      listQuery svc r.Query s = ((posts, total, some err), s1) →
      statusCode (handler.List svc outside r s).1 = some 422 ∧
      renderedNames (handler.List svc outside r s).1 = []) ∧
    (∀ (p : Option Post) (err : Error) (s1 : σ),
      svc.GetByID r.PathID s = ((p, some err), s1) →
      statusCode (handler.Show svc r s).1 = some 404 ∧
      statusCode (handler.EditForm svc r s).1 = some 404) := by
  constructor
  · intro posts total err s1 h
    rw [handler_List_of_error svc outside r s s1 posts total err h]
    exact ⟨rfl, rfl⟩
  · intro p err s1 h
    simp only [handler.Show, handler.EditForm, h]
    exact ⟨rfl, rfl⟩

/-- Witness for C19: the failing `GetAll` of `TestListError`, and `GET
/posts/invalid-id` over the five stored posts. -/
theorem read_path_error_status_witness :
    listQuery (mockService ([], 0, some (Error.driver "fail")) (none, none)) plainRequest.Query ()
      = (([], 0, some (Error.driver "fail")), ()) ∧
    statusCode (handler.List (mockService ([], 0, some (Error.driver "fail")) (none, none)) 0
      plainRequest ()).1 = some 422 ∧
    storedService.GetByID (showRequest "invalid-id").PathID (plainCollection lettersDocs)
      = ((none, some Error.ErrInvalidHex), plainCollection lettersDocs) ∧
    statusCode (handler.EditForm storedService (showRequest "invalid-id")
      (plainCollection lettersDocs)).1 = some 404 :=
  ⟨rfl,
    ((read_path_error_status (mockService ([], 0, some (Error.driver "fail")) (none, none)) 0
      plainRequest ()).1 [] 0 (Error.driver "fail") () rfl).1,
    rfl,
    ((read_path_error_status storedService 0 (showRequest "invalid-id")
      (plainCollection lettersDocs)).2 none Error.ErrInvalidHex
      (plainCollection lettersDocs) rfl).2⟩

/-- C19 as stated fails for `Show` and `EditForm`: `GET /posts/invalid-id`
makes the service return `bson.ErrInvalidHex`, which is not `ErrPostNotFound`,
and both handlers respond with HTTP 404, not 422. -/
theorem show_unclassified_error_counterexample :
    (storedService.GetByID (showRequest "invalid-id").PathID (plainCollection lettersDocs)).1
      = (none, some Error.ErrInvalidHex) ∧
    Error.ErrInvalidHex ≠ Error.ErrPostNotFound ∧
    statusCode (handler.Show storedService (showRequest "invalid-id")
      (plainCollection lettersDocs)).1 = some 404 ∧
    statusCode (handler.EditForm storedService (showRequest "invalid-id")
      (plainCollection lettersDocs)).1 = some 404 ∧
    (404 : Nat) ≠ 422 := by
  decide

/-- C20: when the query of `handler.List` succeeds, a request with the header
`HX-Request: true` gets exactly the two fragments `list` and `pagination`, in
that order, and not `base`; every other request gets exactly the one full page
`base`; both are rendered from the same view-model, which holds the posts
and the total the service returned. -/
theorem list_renders_fragments_or_page {σ : Type} (svc : Service σ) (outside : Int)
    (query : Values) (pathID : String) (s s1 : σ) (posts : List Post) (total : Int)
    (h : listQuery svc query s = ((posts, total, none), s1)) :
    ∃ data : ListPageData,
      data.Posts = posts ∧ data.Total = total ∧ data.Search = query.Get "q" ∧
      ∀ header : Values,
        (Header.Get header "HX-Request" = "true" →
          (handler.List svc outside ⟨query, header, pathID⟩ s).1
            = [Event.Render "list" (TemplateData.listPage data),
                Event.Render "pagination" (TemplateData.listPage data)] ∧
          statusCode (handler.List svc outside ⟨query, header, pathID⟩ s).1 = some 200) ∧
        (Header.Get header "HX-Request" ≠ "true" →
          (handler.List svc outside ⟨query, header, pathID⟩ s).1
            = [Event.Render "base" (TemplateData.listPage data)] ∧
          statusCode (handler.List svc outside ⟨query, header, pathID⟩ s).1 = some 200) := by
  refine ⟨listData outside query posts (svc.GetRecent 5 s1).1.1 total, rfl, rfl, rfl, ?_⟩
  intro header
  have hl := handler_List_of_ok svc outside ⟨query, header, pathID⟩ s s1 posts total h
  constructor
  · intro hx
    rw [hl, listRender, if_pos hx]
    exact ⟨rfl, rfl⟩
  · intro hx
    rw [hl, listRender, if_neg hx]
    exact ⟨rfl, rfl⟩

/-- Witness for C20: the request of `TestListSuccessWithQuery`, once as sent by
the test and once with the header `HX-Request: true`. -/
theorem list_renders_fragments_or_page_witness :
    listQuery (mockService ([], 0, none) (none, none)) searchRequest.Query ()
      = (([], 0, none), ()) ∧
    renderedNames (handler.List (mockService ([], 0, none) (none, none)) 0
      ⟨searchRequest.Query, [("Hx-Request", "true")], ""⟩ ()).1 = ["list", "pagination"] ∧
    renderedNames (handler.List (mockService ([], 0, none) (none, none)) 0
      ⟨searchRequest.Query, [], ""⟩ ()).1 = ["base"] :=
  match list_renders_fragments_or_page (mockService ([], 0, none) (none, none)) 0
    searchRequest.Query "" () () [] 0 (by decide) with
  | ⟨_, _, _, _, hall⟩ =>
    ⟨by decide,
      by rw [((hall [("Hx-Request", "true")]).1 (by decide)).1]; rfl,
      by rw [((hall []).2 (by decide)).1]; rfl⟩

/-! ## Theorems: the handlers that write -/

/-- C21: for a Create or Update request whose form parses and for which the
service returns an error (a validation error, `ErrPostNotFound`, or any
other), the handler logs the error and renders exactly one template, the form
fragment (`form` for create, `edit_form` for update) with `Error` equal to the
message of the error: the response is HTTP 200, no `item` fragment is rendered
and no header, `HX-Trigger` included, is set. -/
theorem write_error_renders_form {σ : Type} (svc : Service σ) (r : FormRequest)
    (form : Values) (s : σ) (hform : r.Form = some form) :
    (∀ (p : Post) (id : String) (err : Error) (s1 : σ),
      svc.Create ⟨"", form.Get "title", form.Get "content", zeroTime, zeroTime⟩ s
        = ((p, id, some err), s1) →
      (handler.Create svc r s).1
        = [Event.Log "Create error" err, Event.Render "form" (TemplateData.error err.Error)] ∧
      statusCode (handler.Create svc r s).1 = some 200 ∧
      renderedNames (handler.Create svc r s).1 = ["form"] ∧
      headersSet (handler.Create svc r s).1 = []) ∧
    (∀ (p : Post) (err : Error) (s1 : σ),
      svc.Update ⟨r.PathID, form.Get "title", form.Get "content", zeroTime, zeroTime⟩ s
        = ((p, some err), s1) →
      (handler.Update svc r s).1
        = [Event.Log "Update error" err,
            Event.Render "edit_form" (TemplateData.error err.Error)] ∧
      statusCode (handler.Update svc r s).1 = some 200 ∧
      renderedNames (handler.Update svc r s).1 = ["edit_form"] ∧
      headersSet (handler.Update svc r s).1 = []) := by
  constructor
  · intro p id err s1 h
    simp only [handler.Create, hform, h]
    exact ⟨trivial, rfl, rfl, rfl⟩
  · intro p err s1 h
    simp only [handler.Update, hform, h]
    exact ⟨trivial, rfl, rfl, rfl⟩

/-- Witness for C21: over the five stored posts, a create form with an empty
title is answered with the `form` fragment carrying "post title cannot be
empty", and an update form for an id no post has with the `edit_form`
fragment carrying "post not found"; both responses are HTTP 200. -/
theorem write_error_renders_form_witness :
    (handler.Create storedService (createRequest "" "C") (plainCollection lettersDocs)).1
      = [Event.Log "Create error" Error.ErrEmptyTitle,
          Event.Render "form" (TemplateData.error "post title cannot be empty")] ∧
    statusCode
      (handler.Create storedService (createRequest "" "C") (plainCollection lettersDocs)).1
      = some 200 ∧
    (handler.Update storedService (updateRequest "000000000000000000000009" "T" "C")
        (plainCollection lettersDocs)).1
      = [Event.Log "Update error" Error.ErrPostNotFound,
          Event.Render "edit_form" (TemplateData.error "post not found")] ∧
    statusCode
      (handler.Update storedService (updateRequest "000000000000000000000009" "T" "C")
        (plainCollection lettersDocs)).1
      = some 200 :=
  ⟨((write_error_renders_form storedService (createRequest "" "C") _
      (plainCollection lettersDocs) rfl).1 _ "" Error.ErrEmptyTitle
      (plainCollection lettersDocs) rfl).1,
   ((write_error_renders_form storedService (createRequest "" "C") _
      (plainCollection lettersDocs) rfl).1 _ "" Error.ErrEmptyTitle
      (plainCollection lettersDocs) rfl).2.1,
   ((write_error_renders_form storedService (updateRequest "000000000000000000000009" "T" "C") _
      (plainCollection lettersDocs) rfl).2 _ Error.ErrPostNotFound
      _ rfl).1,
   ((write_error_renders_form storedService (updateRequest "000000000000000000000009" "T" "C") _
      (plainCollection lettersDocs) rfl).2 _ Error.ErrPostNotFound
      _ rfl).2.1⟩

/-! ## Theorems: histories of the store -/

/-- C23: for all `page` and `limit`, non-positive ones and ones whose product
`(page-1)*limit` wraps around included, the skip `repo.GetAll` and
`repo.Search` compute is not negative; so the find is never rejected for its
skip: `repo.GetAll` returns no error, and `repo.Search` returns none for a
query that compiles. -/
theorem skip_never_negative (page limit : Int) :
    0 ≤ repo.skip page limit ∧
    (∀ coll : Collection, (repo.GetAll coll page limit).2.2 = none) ∧
    (∀ (coll : Collection) (query : String) (m : String → Bool),
      coll.regex query "i" = Except.ok m → (repo.Search coll query page limit).2.2 = none) := by
  refine ⟨le_max_right _ _, ?_, ?_⟩
  · intro coll
    rw [GetAll_eq]
  · intro coll query m hm
    rw [Search_eq coll query m hm]

theorem take_pages {α : Type} (s : List α) (n k : Nat) :
    (List.range k).flatMap (fun i => (s.drop (i * n)).take n) = s.take (k * n) := by
  induction k with
  | zero => simp
  | succ k ih =>
    rw [List.range_succ, List.flatMap_append, ih, Nat.succ_mul, List.take_add]
    simp

theorem page_eq_take_drop (l : List Doc) (limit : Int) (i : Nat) (hl : 1 ≤ limit)
    (hfit : (i : Int) * limit ≤ maxInt64) :
    applyLimit limit ((sortCreatedAtDesc l).drop (repo.skip ((i : Int) + 1) limit).toNat)
      = ((sortCreatedAtDesc l).drop (i * limit.toNat)).take limit.toNat := by
  have hs : repo.skip ((i : Int) + 1) limit = (i : Int) * limit := by
    rw [skip_eq_product ((i : Int) + 1) limit (by omega) hl (by simpa using hfit)]
    simp
  have hlim : limit = (limit.toNat : Int) := (Int.toNat_of_nonneg (by omega)).symm
  have hn : ((i : Int) * limit).toNat = i * limit.toNat := by
    conv_lhs => rw [hlim]
    rw [← Nat.cast_mul, Int.toNat_natCast]
  have ha : limit.natAbs = limit.toNat := by omega
  rw [hs, hn]
  unfold applyLimit
  rw [if_neg (by omega), ha]

theorem pagesUpTo_eq (l : List Doc) (limit : Int) (k : Nat) (hl : 1 ≤ limit)
    (hfit : ((k : Int) - 1) * limit ≤ maxInt64) :
    pagesUpTo (fun page => (applyLimit limit
        ((sortCreatedAtDesc l).drop (repo.skip page limit).toNat)).map Doc.toPost) k
      = ((sortCreatedAtDesc l).take (k * limit.toNat)).map Doc.toPost := by
  have hpage : ∀ i ∈ List.range k,
      (applyLimit limit ((sortCreatedAtDesc l).drop
          (repo.skip ((i : Int) + 1) limit).toNat)).map Doc.toPost
        = (((sortCreatedAtDesc l).drop (i * limit.toNat)).take limit.toNat).map Doc.toPost := by
    intro i hi
    have hik : (i : Int) ≤ (k : Int) - 1 := by
      have := List.mem_range.mp hi
      omega
    rw [page_eq_take_drop l limit i hl
      (le_trans (mul_le_mul_of_nonneg_right hik (by omega)) hfit)]
  unfold pagesUpTo
  rw [List.flatMap_congr hpage, ← take_pages (sortCreatedAtDesc l) limit.toNat k,
    List.map_flatMap]

theorem toPost_CreatedAt_lt (a b : Doc) (h : b.created_at < a.created_at) :
    b.toPost.CreatedAt < a.toPost.CreatedAt := by
  show b.created_at * 1000000 < a.created_at * 1000000
  omega

theorem first_posts_descending (l : List Doc) (n : Nat)
    (hd : l.Pairwise fun a b => a.created_at ≠ b.created_at) :
    (((sortCreatedAtDesc l).take n).map Doc.toPost).length = min n l.length ∧
    (((sortCreatedAtDesc l).take n).map Doc.toPost).Pairwise
      (fun a b => b.CreatedAt < a.CreatedAt) ∧
    (((sortCreatedAtDesc l).take n).map Doc.toPost).Nodup := by
  have hp : (((sortCreatedAtDesc l).take n).map Doc.toPost).Pairwise
      (fun a b => b.CreatedAt < a.CreatedAt) := by
    rw [List.pairwise_map]
    exact ((sortCreatedAtDesc_strict l hd).sublist (List.take_sublist n _)).imp
      (fun {a b} h => toPost_CreatedAt_lt a b h)
  refine ⟨?_, hp, ?_⟩
  · rw [List.length_map, List.length_take, sortCreatedAtDesc_length]
  · exact hp.imp (fun {a b} h hab => by rw [hab] at h; exact lt_irrefl _ h)

theorem applyLimit_length_le (limit : Int) (hl : 1 ≤ limit) (l : List Doc) :
    ((applyLimit limit l).length : Int) ≤ limit := by
  unfold applyLimit
  rw [if_neg (by omega), List.length_take]
  have : min limit.natAbs l.length ≤ limit.natAbs := min_le_left _ _
  omega

/-- C24 (as amended): for a store whose `created_at` values are pairwise
distinct, a limit of at least 1 and `k` pages whose last skip `(k-1)*limit`
fits an `int64`, the pages 1, 2, ..., `k` of `repo.GetAll` one after the other
are exactly the first `min(k*limit, n)` posts of the store in descending
`created_at` order: strictly descending, so no post is on two pages, and a
prefix of the sorted store, so none is skipped; every page has at most `limit`
posts.  The same holds for `repo.Search` with a query that compiles, over the
posts the query matches. -/
theorem pages_partition_the_listing (coll : Collection) (limit : Int) (k : Nat)
    (hl : 1 ≤ limit) (hfit : ((k : Int) - 1) * limit ≤ maxInt64)
    (hd : coll.docs.Pairwise fun a b => a.created_at ≠ b.created_at) :
    (pagesUpTo (fun page => (repo.GetAll coll page limit).1) k
        = ((sortCreatedAtDesc coll.docs).take (k * limit.toNat)).map Doc.toPost ∧
      (pagesUpTo (fun page => (repo.GetAll coll page limit).1) k).length
        = min (k * limit.toNat) coll.docs.length ∧
      (pagesUpTo (fun page => (repo.GetAll coll page limit).1) k).Pairwise
        (fun a b => b.CreatedAt < a.CreatedAt) ∧
      (pagesUpTo (fun page => (repo.GetAll coll page limit).1) k).Nodup ∧
      ∀ page : Int, ((repo.GetAll coll page limit).1.length : Int) ≤ limit) ∧
    ∀ (query : String) (m : String → Bool), coll.regex query "i" = Except.ok m →
      pagesUpTo (fun page => (repo.Search coll query page limit).1) k
        = ((sortCreatedAtDesc (coll.docs.filter fun d => m d.title || m d.content)).take
            (k * limit.toNat)).map Doc.toPost ∧
      (pagesUpTo (fun page => (repo.Search coll query page limit).1) k).length
        = min (k * limit.toNat) (coll.docs.filter fun d => m d.title || m d.content).length ∧
      (pagesUpTo (fun page => (repo.Search coll query page limit).1) k).Pairwise
        (fun a b => b.CreatedAt < a.CreatedAt) ∧
      (pagesUpTo (fun page => (repo.Search coll query page limit).1) k).Nodup ∧
      ∀ page : Int, ((repo.Search coll query page limit).1.length : Int) ≤ limit := by
  constructor
  · have hall : (fun page => (repo.GetAll coll page limit).1)
        = fun page => (applyLimit limit ((sortCreatedAtDesc coll.docs).drop
            (repo.skip page limit).toNat)).map Doc.toPost := by
      funext page
      rw [GetAll_eq]
    have hprops := first_posts_descending coll.docs (k * limit.toNat) hd
    rw [hall, pagesUpTo_eq coll.docs limit k hl hfit]
    refine ⟨rfl, hprops.1, hprops.2.1, hprops.2.2, ?_⟩
    intro page
    rw [GetAll_eq, List.length_map]
    exact applyLimit_length_le limit hl _
  · intro query m hm
    have hall : (fun page => (repo.Search coll query page limit).1)
        = fun page => (applyLimit limit ((sortCreatedAtDesc
            (coll.docs.filter fun d => m d.title || m d.content)).drop
            (repo.skip page limit).toNat)).map Doc.toPost := by
      funext page
      rw [Search_eq coll query m hm]
    have hprops := first_posts_descending
      (coll.docs.filter fun d => m d.title || m d.content) (k * limit.toNat)
      (hd.sublist (List.filter_sublist _))
    rw [hall, pagesUpTo_eq _ limit k hl hfit]
    refine ⟨rfl, hprops.1, hprops.2.1, hprops.2.2, ?_⟩
    intro page
    rw [Search_eq coll query m hm, List.length_map]
    exact applyLimit_length_le limit hl _

/-- Witness for C24: pages 1 to 3 with limit 2 over the five posts of
`TestGetAll` are the five posts, newest first; pages 1 and 2 with limit 1 of
the search for "API" over the posts of `TestSearch` are the two posts that
match. -/
theorem pages_partition_the_listing_witness :
    pagesUpTo (fun page => (repo.GetAll (plainCollection lettersDocs) page 2).1) 3
      = ((sortCreatedAtDesc lettersDocs).take 6).map Doc.toPost ∧
    (pagesUpTo (fun page => (repo.GetAll (plainCollection lettersDocs) page 2).1) 3).map
        Post.Title
      = ["Title E", "Title D", "Title C", "Title B", "Title A"] ∧
    pagesUpTo (fun page => (repo.Search (plainCollection searchDocs) "API" page 1).1) 2
      = ((sortCreatedAtDesc (searchDocs.filter fun d =>
            matchAnywhere (caseFold id) ("API".data.map Atom.lit) d.title.data ||
            matchAnywhere (caseFold id) ("API".data.map Atom.lit) d.content.data)).take
          2).map Doc.toPost ∧
    (pagesUpTo (fun page => (repo.Search (plainCollection searchDocs) "API" page 1).1) 2).map
        Post.Title
      = ["GraphQL API", "RESTful API"] :=
  ⟨(pages_partition_the_listing (plainCollection lettersDocs) 2 3 (by decide) (by decide)
      (by decide)).1.1,
    by decide,
    ((pages_partition_the_listing (plainCollection searchDocs) 1 2 (by decide) (by decide)
      (by decide)).2 "API"
      (fun subject => matchAnywhere (caseFold id) ("API".data.map Atom.lit) subject.data)
      rfl).1,
    by decide⟩

/-- C24 as stated fails in two places.  Where `(page-1)*limit` leaves the
`int64` range: with limit `2^62` over a store of one post, page 1 returns the
post, page 2 is empty, and page 3, whose product `2^63` wraps to `-2^63`, has
skip 0 and returns the post again; the three pages together hold the post
twice, not the first `min(3*2^62, 1) = 1` posts.  And for a query that does
not compile, here a lone backslash: the stored post has a backslash in its
title, and page 1 of the search is the server's error and no post. -/
theorem pages_repeat_counterexample :
    ((1 : Int) ≤ 2 ^ 62 ∧ (2 ^ 62 : Int) ≤ maxInt64) ∧
    (plainCollection [releaseDoc]).docs.Pairwise (fun a b => a.created_at ≠ b.created_at) ∧
    (repo.GetAll (plainCollection [releaseDoc]) 1 (2 ^ 62)).1 = [releaseDoc.toPost] ∧
    (repo.GetAll (plainCollection [releaseDoc]) 2 (2 ^ 62)).1 = [] ∧
    (repo.GetAll (plainCollection [releaseDoc]) 3 (2 ^ 62)).1 = [releaseDoc.toPost] ∧
    pagesUpTo (fun page => (repo.GetAll (plainCollection [releaseDoc]) page (2 ^ 62)).1) 3
      = [releaseDoc.toPost, releaseDoc.toPost] ∧
    pagesUpTo (fun page => (repo.GetAll (plainCollection [releaseDoc]) page (2 ^ 62)).1) 3
      ≠ ((sortCreatedAtDesc [releaseDoc]).take (min (3 * 2 ^ 62) 1)).map Doc.toPost ∧
    ¬ (pagesUpTo
      (fun page => (repo.GetAll (plainCollection [releaseDoc]) page (2 ^ 62)).1) 3).Nodup ∧
    containsCI Char.toLower pathDoc.title "\\" ∧
    repo.Search (plainCollection [pathDoc]) "\\" 1 10
      = ([], 0, some (Error.driver "Regular expression is invalid")) ∧
    pagesUpTo (fun page => (repo.Search (plainCollection [pathDoc]) "\\" page 10).1) 1 = [] := by
  decide

end NewsSvc
